import Mathlib

/-!
Shallow embedding of the pyflysight log-processing pipeline
(`src/pyflysight/flysight_proc.py`, `src/pyflysight/log_utils.py`).

Modelling conventions:

* A polars `DataFrame` is modelled as an association list of named columns
  (`Table α`).  Cell values are drawn from a linear ordered field `α`; the
  Python code operates on IEEE doubles, and every operation verified here
  (comparison, addition, subtraction, absolute value) is exact on rationals,
  so concrete instances are evaluated at `α = ℚ` while the barometric /
  acceleration formulas, which need `rpow` and `sqrt`, are stated at `α = ℝ`.
* `datetime` values (the track's `time` column, the GPS epoch) are modelled
  as rational/real numbers of seconds since the Unix epoch; `datetime`
  subtraction and `timedelta.total_seconds()` are exact at that granularity.
* Python exceptions are modelled by the `PErr` error type; a function that
  can raise returns `Except PErr _`.  In-place mutating methods that can
  raise midway (`trim_log`) return the partially mutated state together
  with an optional error.
-/

namespace PyFlysight

/-- Error taxonomy of the pipeline, mirroring `pyflysight.exceptions` plus the
builtin/polars exceptions the source can raise (`ValueError`, `KeyError`,
polars `ColumnNotFoundError`, out-of-bounds `Series` indexing, polars
`DuplicateError` and `ShapeError`). -/
inductive PErr where
  | headingParse (msg : String)
  | rawLogParse (msg : String)
  | noProcessedFlightLog (msg : String)
  | multipleChildLogs (msg : String)
  | valueError (msg : String)
  | keyError (msg : String)
  | columnNotFound (msg : String)
  | outOfBounds
  | duplicateColumn (msg : String)
  | shapeMismatch
  deriving DecidableEq, Repr

instance {ε σ : Type} [DecidableEq ε] [DecidableEq σ] : DecidableEq (Except ε σ) :=
  fun a b =>
    match a, b with
    | .error e, .error f => decidable_of_iff (e = f) (by simp)
    | .ok x, .ok y => decidable_of_iff (x = y) (by simp)
    | .error _, .ok _ => isFalse (by simp)
    | .ok _, .error _ => isFalse (by simp)

/-- Hardware revision enum, mirroring `pyflysight.FlysightType`. -/
inductive FlysightType where
  | version1
  | version2
  deriving DecidableEq, Repr

/-- `pyflysight.HEADER_PARTITION_KEYWORD`. -/
def HEADER_PARTITION_KEYWORD : String := "$DATA"

/-- A polars `DataFrame`: an ordered association list of named columns.
polars guarantees all columns share one length and names are unique; those
facts are stated as hypotheses where a proof needs them. -/
abbrev Table (α : Type) : Type := List (String × List α)

namespace Table

variable {α : Type}

/-- Column names, in frame order. -/
def colNames (t : Table α) : List String := t.map Prod.fst

/-- `df[name]`: first column with the given name. -/
def getCol (t : Table α) (name : String) : Option (List α) :=
  match t with
  | [] => none
  | (n, c) :: rest => if n = name then some c else getCol rest name

/-- `df.height`: number of rows (length of the first column; a polars frame
is rectangular so every column agrees). -/
def height (t : Table α) : ℕ :=
  match t with
  | [] => 0
  | (_, c) :: _ => c.length

/-- Rectangularity invariant of a real polars frame. -/
def Wf (t : Table α) : Prop := ∀ p ∈ t, (Prod.snd p).length = height t

instance (t : Table α) : Decidable (Wf t) := by
  unfold Wf; infer_instance

/-- `df.with_columns(name=vals)` for a single column: replace the column in
place if the name exists, else append it on the right. -/
def setCol (t : Table α) (name : String) (vals : List α) : Table α :=
  if name ∈ colNames t then
    t.map (fun p => if p.1 = name then (name, vals) else p)
  else
    t ++ [(name, vals)]

/-- `df[l:r]`: Python half-open row slice (rows `l, ..., r-1`), applied to
every column.  For `l ≥ r` the result is empty, matching Python slicing with
non-negative indices. -/
def sliceRows (t : Table α) (l r : ℕ) : Table α :=
  t.map (fun p => (p.1, (p.2.drop l).take (r - l)))

end Table

open Table

/-- `pyflysight.flysight_proc.SensorInfo`: per-channel column/unit schema. -/
structure SensorInfo where
  columns : List String
  units : List String
  id_ : String := ""
  deriving DecidableEq, Repr

/-- `pyflysight.flysight_proc.FlysightV2` device metadata.  `flysight_type` is
stored as the enum; timestamps and the ground pressure reference live in the
cell field `α`. -/
structure FlysightV2 (α : Type) where
  firmware_version : String
  device_id : String
  session_id : String
  sensor_info : List (String × SensorInfo)
  flysight_type : FlysightType := .version2
  first_sensor_timestamp : Option α := none
  ground_pressure_pa : α
  deriving DecidableEq, Repr

/-- `pyflysight.flysight_proc.FlysightV2FlightLog`: the decoded session
aggregate.  `sensor_data` keeps dict insertion order. -/
structure FlysightV2FlightLog (α : Type) where
  track_data : Table α
  sensor_data : List (String × Table α)
  device_info : FlysightV2 α
  _is_trimmed : Bool := false
  deriving DecidableEq, Repr

/-- Concrete three-row table used in the trim counterexample and witnesses. -/
def cexTable : Table ℚ := [("elapsed_time", [0, 1, 2]), ("v", [10, 11, 12])]

/-- Device metadata for the concrete sessions. -/
def cexDevice : FlysightV2 ℚ :=
  { firmware_version := "v1"
    device_id := "d"
    session_id := "s"
    sensor_info := [("BARO", { columns := ["time", "pressure"], units := ["s", "Pa"] })]
    ground_pressure_pa := 101325 }

/-- Concrete decoded session: one sensor table plus a track table. -/
def cexSession : FlysightV2FlightLog ℚ :=
  { track_data := cexTable
    sensor_data := [("BARO", cexTable)]
    device_info := cexDevice }

/-- The table `trim_log` produces from `cexTable` for the window `[0, 2]`:
rows `0` and `1` only; row index `2 = get_idx(end)` is dropped. -/
def cexTrimmed : Table ℚ := [("elapsed_time", [0, 1]), ("v", [10, 11])]

/-- Modelled from the spec: the closed-range slice the claim describes,
keeping rows `l` through `r` inclusive of both endpoints. -/
def sliceRowsClosed (t : Table ℚ) (l r : ℕ) : Table ℚ :=
  t.map (fun p => (p.1, (p.2.drop l).take (r + 1 - l)))

/-- The result session the trim counterexample and witnesses evaluate to. -/
def cexSessionTrimmed : FlysightV2FlightLog ℚ :=
  { track_data := cexTrimmed
    sensor_data := [("BARO", cexTrimmed)]
    device_info := cexDevice
    _is_trimmed := true }

/-- The reference `elapsed_time` sequence used by the spec's `get_idx`
examples. -/
def sampleTable : Table ℚ := [("elapsed_time", [0, 1, 2, 3, 4, 5])]

/-- Python `str.startswith`, modelled on the character list underlying the
string (the byte-position variant in core Lean does not reduce in the
kernel). -/
def strStartsWith (s p : String) : Bool := p.data.isPrefixOf s.data

/-- Split a character list at every occurrence of `c`, Python
`str.split(sep)` semantics for a one-character separator: the empty input
gives one empty field, separators at either end give empty fields. -/
def splitOnChar (c : Char) : List Char → List (List Char)
  | [] => [[]]
  | x :: xs =>
    let r := splitOnChar c xs
    if x = c then [] :: r
    else
      match r with
      | [] => [[x]]
      | y :: ys => (x :: y) :: ys

/-- Python `line.split(",")`. -/
def strSplitComma (s : String) : List String := (splitOnChar ',' s.data).map String.mk

/-- Python `str.endswith`. -/
def strEndsWith (s p : String) : Bool := p.data.isSuffixOf s.data

/-- Drop the last `n` characters; used to model `pathlib.Path.stem` on
filenames ending in `".CSV"`. -/
def strDropRight (s : String) (n : ℕ) : String :=
  String.mk (s.data.take (s.data.length - n))

/-- Index of the first line starting with the partition keyword, mirroring
the `enumerate` scan in `_split_sensor_data`. -/
def findDelimIdx : List String → String → Option ℕ
  | [], _ => none
  | d :: rest, kw =>
    if strStartsWith d kw then some 0 else (findDelimIdx rest kw).map (· + 1)

/-- `pyflysight.flysight_proc._split_sensor_data`: split raw lines into
header and data sections.  V1 logs have a fixed two-line header; V2 logs are
split at the first line starting with the partition keyword, the delimiter
line itself belonging to neither side; a missing delimiter is the only
failure. -/
def _split_sensor_data (data_lines : List String)
    (hardware_type : FlysightType := .version2)
    (partition_keyword : String := HEADER_PARTITION_KEYWORD) :
    Except PErr (List String × List String) :=
  match hardware_type with
  | .version1 => .ok (data_lines.take 2, data_lines.drop 2)
  | .version2 =>
    match findDelimIdx data_lines partition_keyword with
    | some idx => .ok (data_lines.take idx, data_lines.drop (idx + 1))
    | none => .error (.rawLogParse
        "Could not locate line containing partition keyword, please check data file for issues.")

/-- The `$VAR` scan of `_parse_header`: walk the header lines, stopping at
the first `$COL` line, recording the last value seen for each of the three
retained metadata names; any other `$VAR` name is ignored.  A `$VAR` line
that does not split into exactly three comma-separated fields raises
(Python tuple unpacking `_, name, value = line.split(",")`). -/
def scanVars : List String → String → String → String →
    Except PErr (String × String × String)
  | [], fw, dv, ss => .ok (fw, dv, ss)
  | line :: rest, fw, dv, ss =>
    if strStartsWith line "$COL" then .ok (fw, dv, ss)
    else if strStartsWith line "$VAR" then
      match strSplitComma line with
      | [_, nm, value] =>
        if nm = "FIRMWARE_VER" then scanVars rest value dv ss
        else if nm = "DEVICE_ID" then scanVars rest fw value ss
        else if nm = "SESSION_ID" then scanVars rest fw dv value
        else scanVars rest fw dv ss
      | _ => .error (.valueError "could not unpack VAR line into three fields")
    else scanVars rest fw dv ss

/-- Dict insertion, Python semantics: overwriting keeps the original
position, a new key is appended. -/
def dictInsert (m : List (String × SensorInfo)) (k : String) (v : SensorInfo) :
    List (String × SensorInfo) :=
  if k ∈ m.map Prod.fst then
    m.map (fun p => if p.1 = k then (k, v) else p)
  else m ++ [(k, v)]

/-- The `$COL`/`$UNIT` pair loop of `_parse_header`: consume the remaining
header lines two at a time, building the per-sensor schema map.  The GNSS
track schema substitutes `"datetime"` for its missing first unit string. -/
def parseSensorPairs (acc : List (String × SensorInfo)) :
    List String → Except PErr (List (String × SensorInfo))
  | [] => .ok acc
  | [_] => .error (.valueError "could not pop two sensor lines")
  | sensor_header :: sensor_units :: rest =>
    match strSplitComma sensor_header, strSplitComma sensor_units with
    | _ :: sensor_id :: column_strings, _ :: _ :: unit_strings =>
      if sensor_id = "GNSS" then
        match unit_strings with
        | [] => .error .outOfBounds
        | u0 :: us =>
          parseSensorPairs
            (dictInsert acc sensor_id
              { columns := column_strings
                units := (if u0 = "" then "datetime" else u0) :: us
                id_ := sensor_id })
            rest
      else
        parseSensorPairs
          (dictInsert acc sensor_id
            { columns := column_strings, units := unit_strings, id_ := sensor_id })
          rest
    | _, _ => .error (.valueError "could not unpack sensor line")

/-- `pyflysight.flysight_proc._parse_header`, generic in the numeric cell
type (the header itself carries no numbers; `ground_pressure_pa` takes its
standard-day default).  When no `$COL` line exists, the Python
`for`/`enumerate` idiom leaves `idx` at the last line index; that state is
unreachable once the three identity checks pass, since they require at
least one `$VAR` line. -/
def _parse_header {α : Type} [LinearOrderedField α] (header_lines : List String) :
    Except PErr (FlysightV2 α) :=
  match scanVars header_lines "" "" "" with
  | .error e => .error e
  | .ok (fw, dv, ss) =>
    if fw = "" then .error (.headingParse "Could not locate device firmware version.")
    else if dv = "" then .error (.headingParse "Could not locate device ID.")
    else if ss = "" then .error (.headingParse "Could not locate session ID.")
    else
      if (header_lines.length -
          ((findDelimIdx header_lines "$COL").getD (header_lines.length - 1))) % 2 ≠ 0
      then .error (.headingParse "At least one sensor type lacks column or unit information.")
      else
        match parseSensorPairs []
          (header_lines.drop
            ((findDelimIdx header_lines "$COL").getD (header_lines.length - 1))) with
        | .error e => .error e
        | .ok si =>
          .ok { firmware_version := fw
                device_id := dv
                session_id := ss
                sensor_info := si
                ground_pressure_pa := 101325 }

/-- The header lines the `$VAR` scan actually visits: everything strictly
before the first `$COL` line. -/
def colCut (lines : List String) : List String :=
  lines.take ((findDelimIdx lines "$COL").getD lines.length)

/-- `l` is a `$VAR` line whose name field is `nm`. -/
def VarNamed (l nm : String) : Prop :=
  strStartsWith l "$VAR" = true ∧ (strSplitComma l).get? 1 = some nm

instance (l nm : String) : Decidable (VarNamed l nm) := by
  unfold VarNamed; infer_instance

/-- `flysight_proc.GPS_EPOCH` (`1980-01-06T00:00:00`), as seconds since the
Unix epoch: 3657 days. -/
def GPS_EPOCH {α : Type} [LinearOrderedField α] : α := 315964800

/-- `flysight_proc.calculate_sync_delta`: convert the first GPS week /
time-of-week pair into an absolute instant, subtract the onboard elapsed
time recorded at that sample to recover the sensor clock's start instant,
and return the track's first absolute timestamp minus that instant.
`timedelta(weeks=w, seconds=s).total_seconds() = w * 604800 + s`; no
leap-second correction is applied.  Column and row accesses raise in the
order the Python statements perform them. -/
def calculate_sync_delta {α : Type} [LinearOrderedField α]
    (track_data time_sensor : Table α) : Except PErr α :=
  match getCol time_sensor "week" with
  | none => .error (.columnNotFound "week")
  | some wk =>
    match wk.head? with
    | none => .error .outOfBounds
    | some w0 =>
      match getCol time_sensor "tow" with
      | none => .error (.columnNotFound "tow")
      | some tw =>
        match tw.head? with
        | none => .error .outOfBounds
        | some tow0 =>
          match getCol time_sensor "elapsed_time" with
          | none => .error (.columnNotFound "elapsed_time")
          | some els =>
            match els.head? with
            | none => .error .outOfBounds
            | some e0 =>
              match getCol track_data "time" with
              | none => .error (.columnNotFound "time")
              | some ts =>
                match ts.head? with
                | none => .error .outOfBounds
                | some t0 =>
                  .ok (t0 - ((GPS_EPOCH + (w0 * 604800 + tow0)) - e0))

/-- `flysight_proc._add_sync_column`: append `elapsed_time_sensor`, the
track's own `elapsed_time` column shifted by the offset. -/
def _add_sync_column {α : Type} [LinearOrderedField α]
    (track_data : Table α) (track_offset : α) : Except PErr (Table α) :=
  match getCol track_data "elapsed_time" with
  | none => .error (.columnNotFound "elapsed_time")
  | some c =>
    .ok (setCol track_data "elapsed_time_sensor" (c.map (fun x => x + track_offset)))

/-- `flysight_proc._calculate_pressure_altitude`: derive `press_alt_m` and
`press_alt_ft` from the `pressure` (or `pressure_filt`) column under the
standard lapse-rate model.  Stated over `ℝ` since the model needs real
exponentiation (`Real.rpow`), which makes these definitions noncomputable;
their control flow (column lookup, names) still reduces definitionally. -/
noncomputable def _calculate_pressure_altitude (df : Table ℝ)
    (ground_pressure_pa : ℝ) (use_filtered : Bool := false) :
    Except PErr (Table ℝ) :=
  match getCol df (if use_filtered then "pressure_filt" else "pressure") with
  | none => .error (.columnNotFound
      (if use_filtered then "pressure_filt" else "pressure"))
  | some col =>
    let press_alt_m :=
      col.map (fun p => 44330 * (1 - (p / ground_pressure_pa) ^ ((1 : ℝ) / 5.225)))
    .ok [("press_alt_m", press_alt_m),
      ("press_alt_ft", press_alt_m.map (fun x => x * 3.2808))]

/-- polars `DataFrame.hstack`: append the columns of `alts` on the right;
a column name that already exists (or repeats) raises `DuplicateError`. -/
def hstackT {α : Type} (df alts : Table α) : Except PErr (Table α) :=
  if (colNames df ++ colNames alts).Nodup then .ok (df ++ alts)
  else .error (.duplicateColumn "unable to hstack, column already exists")

/-- Does a column name match the polars regex `^a.$` (two characters, the
first an `a`)? -/
def matchesADot (n : String) : Bool :=
  match n.data with
  | [c, _] => c = 'a'
  | _ => false

/-- Does a column name match the polars regex `^a._filt$`? -/
def matchesADotFilt (n : String) : Bool :=
  match n.data with
  | [c, _, f1, f2, f3, f4, f5] =>
    c = 'a' && f1 = '_' && f2 = 'f' && f3 = 'i' && f4 = 'l' && f5 = 't'
  | _ => false

/-- `polars.sum_horizontal(cols.pow(2)).pow(1 / 2)`: the row-wise square
root of the sum of squares over the selected columns. -/
noncomputable def sumSqRt (cols : List (List ℝ)) (h : ℕ) : List ℝ :=
  (List.range h).map
    (fun i => ((cols.map (fun c => ((c.get? i).getD 0) ^ (2 : ℕ))).sum) ^ ((1 : ℝ) / 2))

/-- `flysight_proc._calculate_derived_columns`: BARO tables gain the two
pressure-altitude columns, IMU tables gain `total_accel`; all other sensors
pass through unchanged. -/
noncomputable def _calculate_derived_columns (df : Table ℝ) (sensor : String)
    (device_info : FlysightV2 ℝ) : Except PErr (Table ℝ) :=
  match (if sensor = "BARO" then
      (_calculate_pressure_altitude df device_info.ground_pressure_pa false).bind
        (fun alts => hstackT df alts)
    else (.ok df : Except PErr (Table ℝ))) with
  | .error e => .error e
  | .ok df1 =>
    if sensor = "IMU" then
      .ok (setCol df1 "total_accel"
        (sumSqRt ((df1.filter (fun p => matchesADot p.1)).map Prod.snd) (height df1)))
    else .ok df1

/-- Generic dict lookup (`m[k]`), first match. -/
def dictGet {β : Type} : List (String × β) → String → Option β
  | [], _ => none
  | (k, v) :: rest, key => if k = key then some v else dictGet rest key

/-- Generic dict insertion, Python semantics: overwriting keeps the original
position, a new key is appended. -/
def dictUpd {β : Type} (m : List (String × β)) (k : String) (v : β) :
    List (String × β) :=
  if k ∈ m.map Prod.fst then
    m.map (fun p => if p.1 = k then (k, v) else p)
  else m ++ [(k, v)]

/-- polars `df.with_columns(name=vals)` with its shape validation: the new
series must match the frame height, or be a singleton, which broadcasts. -/
def withColumnChecked {α : Type} (t : Table α) (name : String) (vals : List α) :
    Except PErr (Table α) :=
  if vals.length = height t then .ok (setCol t name vals)
  else
    match vals with
    | [v] => .ok (setCol t name (List.replicate (height t) v))
    | _ => .error .shapeMismatch

/-- `FlysightV2FlightLog.filter_accel`: filter `ax`, `ay`, `az` into
`_filt`-suffixed siblings, recompute `total_accel_filt` from the filtered
components (the `^a._filt$` selection), optionally filter the derived
column too, and store the table back under `"IMU"`. -/
noncomputable def filter_accel (s : FlysightV2FlightLog ℝ)
    (filter_func : List ℝ → List ℝ) (filter_derived : Bool := false) :
    Except PErr (FlysightV2FlightLog ℝ) :=
  match dictGet s.sensor_data "IMU" with
  | none => .error (.keyError "IMU")
  | some df =>
    match getCol df "ax", getCol df "ay", getCol df "az" with
    | some cax, some cay, some caz =>
      (withColumnChecked df "ax_filt" (filter_func cax)).bind fun df1 =>
      (withColumnChecked df1 "ay_filt" (filter_func cay)).bind fun df2 =>
      (withColumnChecked df2 "az_filt" (filter_func caz)).bind fun df3 =>
      (withColumnChecked df3 "total_accel_filt"
        (sumSqRt ((df3.filter (fun p => matchesADotFilt p.1)).map Prod.snd)
          (height df3))).bind fun df4 =>
      (if filter_derived then
        match getCol df4 "total_accel_filt" with
        | some c => withColumnChecked df4 "total_accel_filt" (filter_func c)
        | none => .error (.columnNotFound "total_accel_filt")
      else .ok df4).bind fun df5 =>
      .ok { s with sensor_data := dictUpd s.sensor_data "IMU" df5 }
    | _, _, _ => .error (.columnNotFound "ax, ay, az")

/-- `FlysightV2FlightLog.filter_baro`: filter `pressure` into
`pressure_filt`, recompute the pressure altitudes from the filtered column,
suffix-copy them (`alts.with_columns(polars.all().name.suffix("_filt"))`
keeps the unsuffixed originals and appends suffixed copies), `hstack` all
four onto the table, optionally filter the two derived `_filt` columns, and
store the table back under `"BARO"`. -/
noncomputable def filter_baro (s : FlysightV2FlightLog ℝ)
    (filter_func : List ℝ → List ℝ) (filter_derived : Bool := false) :
    Except PErr (FlysightV2FlightLog ℝ) :=
  match dictGet s.sensor_data "BARO" with
  | none => .error (.keyError "BARO")
  | some df =>
    match getCol df "pressure" with
    | none => .error (.columnNotFound "pressure")
    | some cp =>
      (withColumnChecked df "pressure_filt" (filter_func cp)).bind fun df1 =>
      (_calculate_pressure_altitude df1 s.device_info.ground_pressure_pa true).bind
        fun alts0 =>
      (hstackT df1 (alts0 ++ alts0.map (fun p => (p.1 ++ "_filt", p.2)))).bind
        fun df2 =>
      (if filter_derived then
        match getCol df2 "press_alt_m_filt", getCol df2 "press_alt_ft_filt" with
        | some c1, some c2 =>
          (withColumnChecked df2 "press_alt_m_filt" (filter_func c1)).bind fun d =>
            withColumnChecked d "press_alt_ft_filt" (filter_func c2)
        | _, _ => .error (.columnNotFound "press_alt_m_filt, press_alt_ft_filt")
      else .ok df2).bind fun df3 =>
      .ok { s with sensor_data := dictUpd s.sensor_data "BARO" df3 }

/-- Device metadata for the real-valued filter counterexample. -/
noncomputable def cexDeviceR : FlysightV2 ℝ :=
  { firmware_version := "v1"
    device_id := "d"
    session_id := "s"
    sensor_info := [("BARO", { columns := ["time", "pressure"], units := ["s", "Pa"] })]
    ground_pressure_pa := 101325 }

/-- Freshly decoded BARO table, no derived columns yet. -/
noncomputable def cexBaroR : Table ℝ :=
  [("time", [0, 1]), ("pressure", [101000, 100000])]

/-- Concrete session for the `filter_baro` counterexample. -/
noncomputable def cexSessionR : FlysightV2FlightLog ℝ :=
  { track_data := [("elapsed_time", [0, 1])]
    sensor_data := [("BARO", cexBaroR)]
    device_info := cexDeviceR }

/-- BARO table that already carries a `press_alt_m` column, as the decoding
pipeline itself produces for every BARO frame. -/
noncomputable def cexBaroDupR : Table ℝ :=
  [("pressure", [101000, 100000]), ("press_alt_m", [0, 0])]

/-- Concrete session for the `filter_baro` duplicate-column failure. -/
noncomputable def cexSessionDupR : FlysightV2FlightLog ℝ :=
  { track_data := [("elapsed_time", [0, 1])]
    sensor_data := [("BARO", cexBaroDupR)]
    device_info := cexDeviceR }

/-- Concrete rectangular table with a `time` column for the round-trip
witness. -/
def cexCsvTable : Table ℚ := [("time", [100, 101]), ("elapsed_time", [0, 1])]

/-- Concrete session for the round-trip witness. -/
def cexCsvSession : FlysightV2FlightLog ℚ :=
  { track_data := cexCsvTable
    sensor_data := [("BARO", cexCsvTable)]
    device_info := cexDevice }

section

variable {α : Type} [LinearOrderedField α]

/-- polars `Series.abs`, element-wise absolute value, written with an explicit
comparison so that concrete instances evaluate by `decide`.  Provably equal to
`|·|` (`absVal_eq_abs`). -/
def absVal (x : α) : α := if x < 0 then -x else x

/-- First index (and value) of the minimum of `x :: xs`; ties keep the
earliest occurrence. -/
def minIdxCons (x : α) : List α → ℕ × α
  | [] => (0, x)
  | y :: ys =>
    let p := minIdxCons y ys
    if p.2 < x then (p.1 + 1, p.2) else (0, x)

/-- polars `Series.arg_min`: first index of the minimal value, `none` on an
empty series. -/
def argMin : List α → Option ℕ
  | [] => none
  | x :: xs => some (minIdxCons x xs).1

/-- `pyflysight.log_utils.get_idx`: first index of the data in `ref_col`
closest to `query`. -/
def get_idx (log_data : Table α) (query : α) (ref_col : String := "elapsed_time") :
    Except PErr ℕ :=
  match getCol log_data ref_col with
  | none => .error (.valueError ("Log data does not contain column " ++ ref_col))
  | some c =>
    match argMin (c.map (fun x => absVal (x - query))) with
    | none => .error (.valueError ("Could not locate closest value, is the "
        ++ ref_col ++ " column empty?"))
    | some i => .ok i

/-- One iteration of `FlysightV2FlightLog.trim_log`'s per-table work: resolve
both boundary indices with `get_idx`, take the half-open row slice
`df[l_idx:r_idx]`, then re-zero `elapsed_time` by subtracting the slice's
first `elapsed_time` value.  Returns the table state left behind together
with the error, if any, exactly as the Python statements leave `self`:
a `get_idx` failure leaves the table untouched, while indexing `[0]` into an
empty slice leaves the (empty) slice assigned. -/
def trimTableStep (df : Table α) (elapsed_start elapsed_end : α) :
    Table α × Option PErr :=
  match get_idx df elapsed_start with
  | .error e => (df, some e)
  | .ok l_idx =>
    match get_idx df elapsed_end with
    | .error e => (df, some e)
    | .ok r_idx =>
      match getCol (sliceRows df l_idx r_idx) "elapsed_time" with
      | none => (sliceRows df l_idx r_idx, some (.columnNotFound "elapsed_time"))
      | some c =>
        match c.head? with
        | none => (sliceRows df l_idx r_idx, some .outOfBounds)
        | some new_elapsed_start =>
          (setCol (sliceRows df l_idx r_idx) "elapsed_time"
            (c.map (fun x => x - new_elapsed_start)), none)

/-- The sensor loop of `trim_log`: tables are processed in dict order and the
first error aborts the loop, leaving earlier entries trimmed. -/
def trimSensors (sd : List (String × Table α)) (a b : α) :
    List (String × Table α) × Option PErr :=
  match sd with
  | [] => ([], none)
  | (n, df) :: rest =>
    match trimTableStep df a b with
    | (df', some e) => ((n, df') :: rest, some e)
    | (df', none) =>
      match trimSensors rest a b with
      | (rest', e') => ((n, df') :: rest', e')

/-- `FlysightV2FlightLog.trim_log`: trim every sensor table, then the track
table, to `[elapsed_start, elapsed_end]`, re-zeroing `elapsed_time`; on
success `_is_trimmed` is set.  The returned session is the state the mutating
Python method leaves behind, also when an exception escapes midway. -/
def trim_log (s : FlysightV2FlightLog α) (elapsed_start elapsed_end : α) :
    FlysightV2FlightLog α × Option PErr :=
  match trimSensors s.sensor_data elapsed_start elapsed_end with
  | (sd, some e) => ({ s with sensor_data := sd }, some e)
  | (sd, none) =>
    match trimTableStep s.track_data elapsed_start elapsed_end with
    | (tt, some e) => ({ s with sensor_data := sd, track_data := tt }, some e)
    | (tt, none) =>
      ({ s with sensor_data := sd, track_data := tt, _is_trimmed := true }, none)

/-- A CSV file as polars writes it: the header row of column names followed
by row-major records.  Cell rendering and parsing are value-faithful in the
model; the claim itself treats the numeric text round-trip as exact (its
"modulo floating-point tolerance"). -/
structure CsvFile (α : Type) where
  header : List String
  rows : List (List α)
  deriving DecidableEq, Repr

/-- polars `DataFrame.write_csv`: emit the column names, then one record per
row (a rectangular frame never hits the `getD` default). -/
def write_csv (t : Table α) : CsvFile α :=
  { header := colNames t
    rows := (List.range (height t)).map (fun i => t.map (fun p => (p.2.get? i).getD 0)) }

/-- polars `read_csv`: rebuild the `j`-th column from slot `j` of every
record, named by the `j`-th header entry. -/
def read_csv (c : CsvFile α) : Table α :=
  c.header.enum.map (fun p => (p.2, c.rows.map (fun r => (r.get? p.1).getD 0)))

/-- Contents of one exported file: a CSV table, or the device-info JSON
document.  `json.dump(asdict(...))` emits every `FlysightV2` field with a
JSON-faithful value (strings, float-or-null timestamp, the `IntEnum` tag,
`SensorInfo` named tuples as arrays), so the document is modelled by the
dataclass value it serialises. -/
inductive FileData (α : Type) where
  | csv (c : CsvFile α)
  | json (d : FlysightV2 α)
  deriving DecidableEq

/-- One file on disk: directory path components plus file name (file names
are atomic strings here; `to_csv` never puts a separator in them). -/
structure FSEntry (α : Type) where
  dir : List String
  fname : String
  data : FileData α
  deriving DecidableEq

abbrev FS (α : Type) := List (FSEntry α)

/-- Write one file: overwriting an existing `(dir, name)` replaces its
contents in place, otherwise the file is created. -/
def fsWrite (fs : FS α) (dir : List String) (fname : String) (d : FileData α) : FS α :=
  if (dir, fname) ∈ fs.map (fun e => (e.dir, e.fname)) then
    fs.map (fun e => if e.dir = dir ∧ e.fname = fname then ⟨dir, fname, d⟩ else e)
  else fs ++ [⟨dir, fname, d⟩]

/-- `FlysightV2FlightLog.to_csv` (with `normalize_gps=False`): into the tree
`fs`, under `base/device_id/session_id`, write `TRACK.CSV`, then one
`<sensor>.CSV` per sensor table in dict order, then `device_info.json`. -/
def to_csv (s : FlysightV2FlightLog α) (fs : FS α) (base : List String) : FS α :=
  fsWrite
    (s.sensor_data.foldl
      (fun acc p => fsWrite acc
        (base ++ [s.device_info.device_id, s.device_info.session_id])
        (p.1 ++ ".CSV") (.csv (write_csv p.2)))
      (fsWrite fs (base ++ [s.device_info.device_id, s.device_info.session_id])
        "TRACK.CSV" (.csv (write_csv s.track_data))))
    (base ++ [s.device_info.device_id, s.device_info.session_id])
    "device_info.json" (.json s.device_info)

/-- `FlysightV2.from_json` on a document produced by `to_csv`: `asdict`
emits every dataclass field, so the missing-field guard cannot fire, and
each field is rebuilt from its serialised value (`SensorInfo(*vals)` from
the named-tuple array, `FlysightType` from its `IntEnum` tag). -/
def FlysightV2.from_json (raw : FlysightV2 α) : FlysightV2 α :=
  { firmware_version := raw.firmware_version
    device_id := raw.device_id
    session_id := raw.session_id
    sensor_info := raw.sensor_info.map
      (fun p => (p.1, SensorInfo.mk p.2.columns p.2.units p.2.id_))
    flysight_type := raw.flysight_type
    first_sensor_timestamp := raw.first_sensor_timestamp
    ground_pressure_pa := raw.ground_pressure_pa }

/-- `base_dir.rglob("device_info.json")`: every file of that name anywhere
under the base dir. -/
def deviceCandidates (fs : FS α) : FS α :=
  fs.filter (fun e => decide (e.fname = "device_info.json"))

/-- `data_dir.glob("*.CSV")` followed by the per-file prep in `from_csv`'s
loop: the sibling files of the device info JSON whose name ends in `.CSV`,
as `(stem, parsed table)` pairs, in stored order (`glob` order is
unspecified in Python; dict equality there disregards it).  A `.CSV`-named
file holding JSON is not produced by `to_csv`; `polars.read_csv` would
parse its text as some frame, modelled as the empty table. -/
def csvEntries (fs : FS α) (dir : List String) : List (String × Table α) :=
  (fs.filter (fun x => decide (x.dir = dir) && strEndsWith x.fname ".CSV")).map
    (fun x => (strDropRight x.fname 4,
      match x.data with
      | .csv c => read_csv c
      | .json _ => []))

/-- The `for sensor_filepath in data_dir.glob("*.CSV")` loop: a `TRACK` stem
(re)binds the track table — re-parsing its `time` column from text, which is
value-faithful here but raises if the column is absent — and any other stem
is stored into the sensor dict. -/
def from_csv_loop : List (String × Table α) → Option (Table α) →
    List (String × Table α) →
    Except PErr (Option (Table α) × List (String × Table α))
  | [], tr, sd => .ok (tr, sd)
  | (stem, t) :: rest, tr, sd =>
    if stem = "TRACK" then
      match getCol t "time" with
      | none => .error (.columnNotFound "time")
      | some c => from_csv_loop rest (some (setCol t "time" c)) sd
    else from_csv_loop rest tr (dictUpd sd stem t)

/-- Tail of `from_csv` after the device info JSON is loaded: run the glob
loop, demand a track table and at least one sensor table, and assemble the
instance (`_is_trimmed` takes its dataclass default). -/
def from_csv_assemble (raw : FlysightV2 α) (items : List (String × Table α)) :
    Except PErr (FlysightV2FlightLog α) :=
  match from_csv_loop items none [] with
  | .error err => .error err
  | .ok (none, _) => .error (.valueError "Track data file could not be located.")
  | .ok (some tr, sd) =>
    if sd.isEmpty then .error (.valueError "No sensor data files could be located.")
    else .ok { track_data := tr, sensor_data := sd,
                device_info := FlysightV2.from_json raw }

/-- `FlysightV2FlightLog.from_csv`: demand exactly one `device_info.json`
under the base dir (none raises `NoProcessedFlightLogError`, several raise
`MultipleChildLogsError`), rebuild the device info from it, then read the
sibling `*.CSV` files.  A non-JSON `device_info.json` fails `json.load`. -/
def from_csv (fs : FS α) : Except PErr (FlysightV2FlightLog α) :=
  match deviceCandidates fs with
  | [] => .error (.noProcessedFlightLog
      "No device info JSON found in the given base dir or its children.")
  | [e] =>
    match e.data with
    | .csv _ => .error (.valueError "device_info.json is not valid JSON")
    | .json raw => from_csv_assemble raw (csvEntries fs e.dir)
  | _ :: _ :: _ => .error (.multipleChildLogs
      "Must specify a base dir with only one child data directory.")

end

section

variable {α : Type} [LinearOrderedField α]

theorem absVal_eq_abs (x : α) : absVal x = |x| := by
  unfold absVal
  split
  · exact (abs_of_neg (by assumption)).symm
  · exact (abs_of_nonneg (by linarith [not_lt.mp (by assumption)])).symm

theorem minIdxCons_get (x : α) (xs : List α) :
    (x :: xs).get? (minIdxCons x xs).1 = some (minIdxCons x xs).2 := by
  induction xs generalizing x with
  | nil => rfl
  | cons y ys ih =>
    by_cases h : (minIdxCons y ys).2 < x
    · simp only [minIdxCons, if_pos h]
      simpa using ih y
    · simp [minIdxCons, if_neg h]

theorem minIdxCons_le (x : α) (xs : List α) :
    ∀ j v, (x :: xs).get? j = some v → (minIdxCons x xs).2 ≤ v := by
  induction xs generalizing x with
  | nil =>
    intro j v hv
    match j, hv with
    | 0, hv =>
      have hx : x = v := by simpa using hv
      simp [minIdxCons, hx]
  | cons y ys ih =>
    intro j v hv
    by_cases h : (minIdxCons y ys).2 < x
    · simp only [minIdxCons, if_pos h]
      match j, hv with
      | 0, hv =>
        have hx : x = v := by simpa using hv
        exact hx ▸ le_of_lt h
      | (k + 1), hv => exact ih y k v (by simpa using hv)
    · simp only [minIdxCons, if_neg h]
      match j, hv with
      | 0, hv =>
        have hx : x = v := by simpa using hv
        exact hx ▸ le_refl x
      | (k + 1), hv =>
        exact le_trans (not_lt.mp h) (ih y k v (by simpa using hv))

theorem minIdxCons_lt_earlier (x : α) (xs : List α) :
    ∀ j v, j < (minIdxCons x xs).1 → (x :: xs).get? j = some v →
      (minIdxCons x xs).2 < v := by
  induction xs generalizing x with
  | nil => intro j v hj _; simp [minIdxCons] at hj
  | cons y ys ih =>
    intro j v hj hv
    by_cases h : (minIdxCons y ys).2 < x
    · simp only [minIdxCons, if_pos h]
      simp only [minIdxCons, if_pos h] at hj
      match j, hv with
      | 0, hv =>
        have hx : x = v := by simpa using hv
        exact hx ▸ h
      | (k + 1), hv =>
        exact ih y k v (by omega) (by simpa using hv)
    · simp only [minIdxCons, if_neg h] at hj
      omega

/-- Characterization of `get_idx` as a first-argmin: the returned index holds a
value whose distance to the query is minimal, and strictly smaller than the
distance at every earlier index. -/
theorem get_idx_spec (t : Table α) (q : α) (ref : String) (c : List α) (i : ℕ)
    (hc : getCol t ref = some c) (h : get_idx t q ref = .ok i) :
    ∃ v, c.get? i = some v ∧
      (∀ j w, c.get? j = some w → absVal (v - q) ≤ absVal (w - q)) ∧
      (∀ j w, j < i → c.get? j = some w → absVal (v - q) < absVal (w - q)) := by
  unfold get_idx at h
  rw [hc] at h
  match hcl : c with
  | [] => simp [argMin] at h
  | x :: xs =>
    simp only [List.map_cons, argMin] at h
    have hi : i = (minIdxCons (absVal (x - q)) (xs.map (fun y => absVal (y - q)))).1 := by
      cases h; rfl
    set dxs := xs.map (fun y => absVal (y - q)) with hdxs
    have hget := minIdxCons_get (absVal (x - q)) dxs
    have hmap : (absVal (x - q) :: dxs) = (x :: xs).map (fun y => absVal (y - q)) := rfl
    rw [hmap, List.get?_map] at hget
    match hv : (x :: xs).get? i with
    | none => rw [← hi, hv] at hget; exact absurd hget (by simp)
    | some v =>
      refine ⟨v, rfl, ?_, ?_⟩
      · intro j w hw
        have hle := minIdxCons_le (absVal (x - q)) dxs j (absVal (w - q))
          (by rw [hmap, List.get?_map, hw]; rfl)
        rw [← hi, hv] at hget
        have hvq : absVal (v - q) = (minIdxCons (absVal (x - q)) dxs).2 := by
          simpa using hget
        rw [hvq]; exact hle
      · intro j w hj hw
        have hlt := minIdxCons_lt_earlier (absVal (x - q)) dxs j (absVal (w - q))
          (hi ▸ hj) (by rw [hmap, List.get?_map, hw]; rfl)
        rw [← hi, hv] at hget
        have hvq : absVal (v - q) = (minIdxCons (absVal (x - q)) dxs).2 := by
          simpa using hget
        rw [hvq]; exact hlt

theorem getCol_map_replace (name other : String) (vals : List α) :
    ∀ t : Table α,
      getCol (t.map (fun p => if p.1 = name then (name, vals) else p)) other =
        if other = name then (if name ∈ colNames t then some vals else none)
        else getCol t other := by
  intro t
  induction t with
  | nil => simp [getCol, colNames]
  | cons p rest ih =>
    by_cases hp : p.1 = name
    · simp only [List.map_cons]
      rw [if_pos hp]
      by_cases ho : other = name
      · simp [getCol, colNames, ho, hp, ih]
      · simp only [getCol]
        rw [if_neg (fun hc : name = other => ho hc.symm), ih, if_neg ho, if_neg ho,
          if_neg (hp ▸ fun hc : p.1 = other => ho (hp ▸ hc).symm)]
    · simp only [List.map_cons]
      rw [if_neg hp]
      by_cases ho : p.1 = other
      · have hon : ¬other = name := fun hc => hp (ho.symm ▸ hc)
        simp [getCol, ho, hon]
      · simp only [getCol]
        rw [if_neg ho, ih, if_neg ho]
        by_cases hon : other = name
        · rw [if_pos hon, if_pos hon]
          have hiff : (name ∈ colNames (p :: rest)) ↔ (name ∈ colNames rest) := by
            constructor
            · intro hc
              rcases (by simpa [colNames] using hc : name = p.1 ∨ name ∈ colNames rest) with
                hh | hh
              · exact absurd hh.symm hp
              · exact hh
            · intro hc
              simp [colNames]
              exact Or.inr (by simpa [colNames] using hc)
          exact (if_congr hiff rfl rfl).symm
        · rw [if_neg hon, if_neg hon]

theorem getCol_append_one (name other : String) (vals : List α) :
    ∀ t : Table α,
      getCol (t ++ [(name, vals)]) other =
        match getCol t other with
        | some c => some c
        | none => if name = other then some vals else none := by
  intro t
  induction t with
  | nil => simp [getCol]
  | cons p rest ih =>
    by_cases hp : p.1 = other
    · simp [getCol, hp]
    · simp only [List.cons_append, getCol]
      rw [if_neg hp, if_neg hp]
      exact ih

theorem getCol_setCol_self (t : Table α) (name : String) (vals : List α) :
    getCol (setCol t name vals) name = some vals := by
  unfold setCol
  split
  · rename_i hin
    rw [getCol_map_replace, if_pos rfl, if_pos hin]
  · rename_i hout
    rw [getCol_append_one]
    have hnone : getCol t name = none := by
      induction t with
      | nil => rfl
      | cons p rest ih =>
        have hp : ¬p.1 = name := fun hc => hout (by simp [colNames, hc])
        simp only [getCol]
        rw [if_neg hp]
        exact ih (fun hc => hout (by
          simp [colNames]
          exact Or.inr (by simpa [colNames] using hc)))
    rw [hnone, if_pos rfl]

theorem getCol_setCol_other (t : Table α) (name other : String) (vals : List α)
    (h : other ≠ name) : getCol (setCol t name vals) other = getCol t other := by
  unfold setCol
  split
  · rw [getCol_map_replace, if_neg h]
  · rw [getCol_append_one]
    match hg : getCol t other with
    | some c => rfl
    | none => rw [if_neg (fun hc : name = other => h hc.symm)]

theorem getCol_sliceRows (t : Table α) (name : String) (l r : ℕ) :
    getCol (sliceRows t l r) name =
      (getCol t name).map (fun c => (c.drop l).take (r - l)) := by
  induction t with
  | nil => rfl
  | cons p rest ih =>
    by_cases hp : p.1 = name
    · simp [sliceRows, getCol, hp]
    · simp only [sliceRows, List.map_cons, getCol]
      rw [if_neg hp, if_neg hp]
      exact ih

theorem get_idx_ok_col (t : Table α) (q : α) (ref : String) (i : ℕ)
    (h : get_idx t q ref = .ok i) : ∃ c, getCol t ref = some c ∧ c ≠ [] := by
  unfold get_idx at h
  match hc : getCol t ref with
  | none => rw [hc] at h; exact absurd h (by simp)
  | some c =>
    rw [hc] at h
    refine ⟨c, rfl, ?_⟩
    intro hnil
    rw [hnil] at h
    simp [argMin] at h

/-- Success shape of one `trim_log` table step: both boundaries resolve, the
table is replaced by the half-open slice `[l_idx, r_idx)` with `elapsed_time`
re-zeroed to its new first value. -/
theorem trimTableStep_ok (df df' : Table α) (a b : α)
    (h : trimTableStep df a b = (df', none)) :
    ∃ l r c f, get_idx df a "elapsed_time" = .ok l ∧
      get_idx df b "elapsed_time" = .ok r ∧
      getCol (sliceRows df l r) "elapsed_time" = some c ∧ c.head? = some f ∧
      df' = setCol (sliceRows df l r) "elapsed_time" (c.map (fun x => x - f)) := by
  unfold trimTableStep at h
  split at h
  · simp at h
  · rename_i l hl
    split at h
    · simp at h
    · rename_i r hr
      split at h
      · simp at h
      · rename_i c hc
        split at h
        · simp at h
        · rename_i f hf
          refine ⟨l, r, c, f, hl, hr, hc, hf, ?_⟩
          exact ((Prod.mk.injEq .. ▸ h).1).symm

/-- Failure shape of one `trim_log` table step when both boundaries resolve to
the same index: the slice is empty, indexing its first `elapsed_time` value
raises, and the (empty) slice is what the loop body leaves assigned. -/
theorem trimTableStep_same_idx (df : Table α) (a b : α) (i : ℕ)
    (ha : get_idx df a "elapsed_time" = .ok i)
    (hb : get_idx df b "elapsed_time" = .ok i) :
    trimTableStep df a b = (sliceRows df i i, some .outOfBounds) := by
  obtain ⟨c, hc, -⟩ := get_idx_ok_col df a "elapsed_time" i ha
  unfold trimTableStep
  have hcs : getCol (sliceRows df i i) "elapsed_time" = some [] := by
    rw [getCol_sliceRows, hc]
    simp
  simp only [ha, hb, hcs]
  rfl

/-- The sensor loop preserves list positions: on success every table is the
result of its own trim step, and each step succeeded. -/
theorem trimSensors_ok (a b : α) :
    ∀ sd sd', trimSensors sd a b = (sd', none) →
      ∀ i p, sd.get? i = some p →
        (trimTableStep p.2 a b).2 = none ∧
        sd'.get? i = some (p.1, (trimTableStep p.2 a b).1) := by
  intro sd
  induction sd with
  | nil =>
    intro sd' h i p hp
    simp at hp
  | cons q rest ih =>
    intro sd' h i p hp
    unfold trimSensors at h
    match hstep : trimTableStep q.2 a b with
    | (df', some e) => rw [hstep] at h; exact absurd h (by simp)
    | (df', none) =>
      rw [hstep] at h
      match hrest : trimSensors rest a b with
      | (rest', e') =>
        rw [hrest] at h
        have he : e' = none := (Prod.mk.injEq .. ▸ h).2
        have hsd : sd' = (q.1, df') :: rest' := ((Prod.mk.injEq .. ▸ h).1).symm
        match i, hp with
        | 0, hp =>
          have hq : q = p := by simpa using hp
          subst hq
          refine ⟨by rw [hstep], ?_⟩
          rw [hsd]
          simp [hstep]
        | (k + 1), hp =>
          have := ih rest' (by rw [hrest, he]) k p (by simpa using hp)
          refine ⟨this.1, ?_⟩
          rw [hsd]
          simpa using this.2

/-- The sensor loop aborted by a failing table: earlier entries are left in
their trimmed state, the failing entry holds whatever its step left behind,
later entries are untouched. -/
theorem trimSensors_fail (a b : α) :
    ∀ (pre : List (String × Table α)) (n : String) (df df' : Table α)
      (post : List (String × Table α)) (e : PErr),
      (∀ p ∈ pre, (trimTableStep p.2 a b).2 = none) →
      trimTableStep df a b = (df', some e) →
      trimSensors (pre ++ (n, df) :: post) a b =
        (pre.map (fun p => (p.1, (trimTableStep p.2 a b).1)) ++ (n, df') :: post,
          some e) := by
  intro pre
  induction pre with
  | nil =>
    intro n df df' post e _ hstep
    simp [trimSensors, hstep]
  | cons q rest ih =>
    intro n df df' post e hok hstep
    have hq : (trimTableStep q.2 a b).2 = none := hok q (by simp)
    match hqs : trimTableStep q.2 a b with
    | (q', some e') => rw [hqs] at hq; exact absurd hq (by simp)
    | (q', none) =>
      have hrec := ih n df df' post e (fun p hp => hok p (by simp [hp])) hstep
      simp [trimSensors, hqs, hrec]

theorem absVal_of_nonneg {x : α} (h : 0 ≤ x) : absVal x = x :=
  if_neg (not_lt.mpr h)

theorem absVal_of_nonpos {x : α} (h : x ≤ 0) : absVal x = -x := by
  unfold absVal
  split
  · rfl
  · rename_i hx
    have h0 : x = 0 := le_antisymm h (not_lt.mp hx)
    simp [h0]

theorem get_idx_ok_of_nonempty (t : Table α) (q : α) (ref : String) (c : List α)
    (hc : getCol t ref = some c) (hne : c ≠ []) :
    ∃ i, get_idx t q ref = .ok i := by
  unfold get_idx
  rw [hc]
  match c, hne with
  | x :: xs, _ => exact ⟨_, rfl⟩

/-- A query at or below every (strictly sorted) reference value resolves to
the first row. -/
theorem get_idx_clamp_left (t : Table α) (q : α) (ref : String) (c : List α)
    (hc : getCol t ref = some c) (hne : c ≠ [])
    (hsort : List.Pairwise (· < ·) c) (hq : ∀ w ∈ c, q ≤ w) :
    get_idx t q ref = .ok 0 := by
  obtain ⟨i, hi⟩ := get_idx_ok_of_nonempty t q ref c hc hne
  obtain ⟨v, hv, hmin, hstrict⟩ := get_idx_spec t q ref c i hc hi
  match c, hne with
  | c0 :: cs, _ =>
    rcases Nat.eq_zero_or_pos i with h0 | hpos
    · rw [h0] at hi; exact hi
    · exfalso
      have hlt := hstrict 0 c0 hpos rfl
      have hvmem : v ∈ c0 :: cs := by
        have := List.get?_eq_some.mp hv
        obtain ⟨hlen, hget⟩ := this
        exact hget ▸ List.get_mem ..
      have hc0v : c0 < v := by
        have h1 := List.pairwise_iff_get.mp hsort ⟨0, by simp⟩
          ⟨i, (List.get?_eq_some.mp hv).1⟩ (by simpa using hpos)
        have hgv := (List.get?_eq_some.mp hv).2
        simp only [List.get_eq_getElem] at hgv h1
        simpa [hgv] using h1
      rw [absVal_of_nonneg (by linarith [hq v hvmem]),
        absVal_of_nonneg (by linarith [hq c0 (by simp)])] at hlt
      linarith

/-- A query at or above every (strictly sorted) reference value resolves to
the last row. -/
theorem get_idx_clamp_right (t : Table α) (q : α) (ref : String) (c : List α)
    (hc : getCol t ref = some c) (hne : c ≠ [])
    (hsort : List.Pairwise (· < ·) c) (hq : ∀ w ∈ c, w ≤ q) :
    get_idx t q ref = .ok (c.length - 1) := by
  obtain ⟨i, hi⟩ := get_idx_ok_of_nonempty t q ref c hc hne
  obtain ⟨v, hv, hmin, hstrict⟩ := get_idx_spec t q ref c i hc hi
  have hilen : i < c.length := (List.get?_eq_some.mp hv).1
  have hlenpos : 0 < c.length := List.length_pos.mpr hne
  rcases Nat.lt_or_ge i (c.length - 1) with hlt | hge
  · exfalso
    have hlast : c.get? (c.length - 1) = some (c.get ⟨c.length - 1, by omega⟩) :=
      List.get?_eq_get (by omega)
    set w := c.get ⟨c.length - 1, by omega⟩ with hw
    have hle := hmin (c.length - 1) w hlast
    have hvw : v < w := by
      have h1 := List.pairwise_iff_get.mp hsort ⟨i, hilen⟩
        ⟨c.length - 1, by omega⟩ (by simpa using hlt)
      have hgv := (List.get?_eq_some.mp hv).2
      simp only [List.get_eq_getElem] at hgv h1
      rw [hw]
      simp only [List.get_eq_getElem]
      simpa [hgv] using h1
    have hvmem : v ∈ c := by
      obtain ⟨hlen, hget⟩ := List.get?_eq_some.mp hv
      exact hget ▸ List.get_mem ..
    have hwmem : w ∈ c := List.get_mem ..
    rw [absVal_of_nonpos (by linarith [hq v hvmem]),
      absVal_of_nonpos (by linarith [hq w hwmem])] at hle
    linarith
  · have : i = c.length - 1 := by omega
    rw [← this]
    exact hi

theorem range_map_getD (l : List α) :
    (List.range l.length).map (fun i => (l.get? i).getD 0) = l := by
  induction l with
  | nil => rfl
  | cons a l ih =>
    rw [List.length_cons, List.range_succ_eq_map, List.map_cons, List.map_map]
    show a :: (List.range l.length).map (fun i => (l.get? i).getD 0) = a :: l
    rw [ih]

/-- Writing a rectangular frame to CSV and reading it back is the identity:
slot `j` of the records reassembles exactly column `j`. -/
theorem read_write_csv (t : Table α) (hwf : Wf t) :
    read_csv (write_csv t) = t := by
  unfold read_csv write_csv
  apply List.ext_get?
  intro j
  cases ht : t.get? j with
  | none =>
    have hj : t.length ≤ j := List.get?_eq_none.mp ht
    simp [colNames, List.get?_map, List.get?_enum, ht, hj]
  | some p =>
    have hlen : p.2.length = height t := hwf p (List.get?_mem ht)
    simp only [colNames, List.get?_map, List.get?_enum, ht, Option.map_some']
    rw [List.map_map]
    have hcol : (List.range (height t)).map
        ((fun r => (List.get? r j).getD 0) ∘ fun i => t.map (fun q => (q.2.get? i).getD 0)) =
        (List.range (height t)).map (fun i => (p.2.get? i).getD 0) := by
      apply List.map_congr_left
      intro i _
      show ((t.map (fun q => (q.2.get? i).getD 0)).get? j).getD 0 = (p.2.get? i).getD 0
      rw [List.get?_map, ht]
      rfl
    rw [hcol, ← hlen, range_map_getD]

theorem mem_colNames_of_getCol (t : Table α) (n : String) (c : List α)
    (h : getCol t n = some c) : n ∈ colNames t := by
  induction t with
  | nil => simp [getCol] at h
  | cons p rest ih =>
    by_cases hp : p.1 = n
    · have hcn : colNames (p :: rest) = p.1 :: colNames rest := rfl
      rw [hcn, hp]
      exact List.mem_cons_self _ _
    · simp only [getCol, if_neg hp] at h
      exact List.mem_cons_of_mem _ (ih h)

theorem getCol_of_mem_colNames (t : Table α) (n : String) (h : n ∈ colNames t) :
    ∃ c, getCol t n = some c := by
  induction t with
  | nil => simp [colNames] at h
  | cons p rest ih =>
    by_cases hp : p.1 = n
    · exact ⟨p.2, by simp [getCol, hp]⟩
    · have hcn : colNames (p :: rest) = p.1 :: colNames rest := rfl
      rw [hcn] at h
      rcases List.mem_cons.mp h with h1 | h1
      · exact absurd h1.symm hp
      · obtain ⟨c, hc⟩ := ih h1
        exact ⟨c, by simp [getCol, hp, hc]⟩

theorem map_replace_keep_of_not_mem (t : Table α) (n : String) (c : List α)
    (h : n ∉ colNames t) :
    t.map (fun p => if p.1 = n then (n, c) else p) = t := by
  induction t with
  | nil => rfl
  | cons p rest ih =>
    have hcn : colNames (p :: rest) = p.1 :: colNames rest := rfl
    rw [hcn] at h
    rw [List.map_cons,
      if_neg (fun hp => h (List.mem_cons.mpr (Or.inl hp.symm))),
      ih (fun hm => h (List.mem_cons_of_mem _ hm))]

theorem map_replace_of_getCol (t : Table α) (n : String) (c : List α)
    (hnd : (colNames t).Nodup) (h : getCol t n = some c) :
    t.map (fun p => if p.1 = n then (n, c) else p) = t := by
  induction t with
  | nil => rfl
  | cons p rest ih =>
    have hcn : colNames (p :: rest) = p.1 :: colNames rest := rfl
    rw [hcn] at hnd
    obtain ⟨hp1, hnd2⟩ := List.nodup_cons.mp hnd
    by_cases hp : p.1 = n
    · have hc : p.2 = c := by
        simp only [getCol, if_pos hp] at h
        exact Option.some.inj h
      rw [List.map_cons, if_pos hp,
        map_replace_keep_of_not_mem rest n c (hp ▸ hp1), ← hp, ← hc]
    · simp only [getCol, if_neg hp] at h
      rw [List.map_cons, if_neg hp, ih hnd2 h]

/-- Replacing a column with its own current contents is a no-op (polars
frames have distinct column names). -/
theorem setCol_getCol_self (t : Table α) (n : String) (c : List α)
    (hnd : (colNames t).Nodup) (h : getCol t n = some c) :
    setCol t n c = t := by
  unfold setCol
  rw [if_pos (mem_colNames_of_getCol t n c h)]
  exact map_replace_of_getCol t n c hnd h

theorem strEndsWith_append (a b : String) : strEndsWith (a ++ b) b = true := by
  unfold strEndsWith
  rw [String.data_append]
  exact List.isSuffixOf_iff_suffix.mpr (List.suffix_append _ _)

theorem append_CSV_ne_device (a : String) : a ++ ".CSV" ≠ "device_info.json" := by
  intro h
  have h1 := strEndsWith_append a ".CSV"
  rw [h] at h1
  exact absurd h1 (by decide)

theorem append_CSV_inj {a b : String} (h : a ++ ".CSV" = b ++ ".CSV") : a = b := by
  have hd := congrArg String.data h
  rw [String.data_append, String.data_append] at hd
  have h2 := List.append_cancel_right hd
  exact congrArg String.mk h2

theorem strDropRight_append_CSV (a : String) : strDropRight (a ++ ".CSV") 4 = a := by
  unfold strDropRight
  rw [String.data_append]
  have h4 : (".CSV" : String).data = ['.', 'C', 'S', 'V'] := rfl
  rw [h4]
  have hlen : (a.data ++ ['.', 'C', 'S', 'V']).length - 4 = a.data.length := by
    simp
  rw [hlen, List.take_left]

theorem fsWrite_fresh (fs : FS α) (dir : List String) (n : String) (d : FileData α)
    (h : (dir, n) ∉ fs.map (fun e => (e.dir, e.fname))) :
    fsWrite fs dir n d = fs ++ [⟨dir, n, d⟩] := by
  unfold fsWrite
  rw [if_neg h]

theorem foldl_fsWrite_fresh (l : List (String × Table α)) (fs : FS α)
    (dir : List String)
    (hfresh : ∀ q ∈ l, (dir, q.1 ++ ".CSV") ∉ fs.map (fun e => (e.dir, e.fname)))
    (hnd : (l.map Prod.fst).Nodup) :
    l.foldl (fun acc p => fsWrite acc dir (p.1 ++ ".CSV") (.csv (write_csv p.2))) fs =
      fs ++ l.map (fun p => ⟨dir, p.1 ++ ".CSV", .csv (write_csv p.2)⟩) := by
  induction l generalizing fs with
  | nil => simp
  | cons p l ih =>
    obtain ⟨hp1, hnd2⟩ := List.nodup_cons.mp hnd
    rw [List.foldl_cons, fsWrite_fresh _ _ _ _ (hfresh p (List.mem_cons_self _ _))]
    have hf2 : ∀ q ∈ l, (dir, q.1 ++ ".CSV") ∉
        (fs ++ [(⟨dir, p.1 ++ ".CSV", FileData.csv (write_csv p.2)⟩ : FSEntry α)]).map
          (fun e => (e.dir, e.fname)) := by
      intro q hq hmem
      rw [List.map_append] at hmem
      rcases List.mem_append.mp hmem with hm | hm
      · exact hfresh q (List.mem_cons_of_mem _ hq) hm
      · have hm2 : ((dir, q.1 ++ ".CSV") : List String × String) =
            (dir, p.1 ++ ".CSV") := by simpa using hm
        have hq1 : q.1 = p.1 := append_CSV_inj (congrArg Prod.snd hm2)
        exact hp1 (hq1 ▸ List.mem_map_of_mem Prod.fst hq)
    rw [ih _ hf2 hnd2]
    simp

/-- `to_csv` into an empty tree lays down exactly the track CSV, the sensor
CSVs in dict order, and the device info JSON, all in one directory. -/
theorem to_csv_explicit (s : FlysightV2FlightLog α) (base : List String)
    (hT : "TRACK" ∉ s.sensor_data.map Prod.fst)
    (hnd : (s.sensor_data.map Prod.fst).Nodup) :
    to_csv s [] base =
      (⟨base ++ [s.device_info.device_id, s.device_info.session_id], "TRACK.CSV",
          .csv (write_csv s.track_data)⟩ ::
        s.sensor_data.map (fun p =>
          ⟨base ++ [s.device_info.device_id, s.device_info.session_id],
            p.1 ++ ".CSV", .csv (write_csv p.2)⟩)) ++
      [⟨base ++ [s.device_info.device_id, s.device_info.session_id],
        "device_info.json", .json s.device_info⟩] := by
  unfold to_csv
  have h1 : fsWrite ([] : FS α)
      (base ++ [s.device_info.device_id, s.device_info.session_id])
      "TRACK.CSV" (.csv (write_csv s.track_data)) =
      [⟨base ++ [s.device_info.device_id, s.device_info.session_id], "TRACK.CSV",
        .csv (write_csv s.track_data)⟩] := by
    rw [fsWrite_fresh]
    · rfl
    · simp
  rw [h1]
  have hf : ∀ q ∈ s.sensor_data,
      ((base ++ [s.device_info.device_id, s.device_info.session_id], q.1 ++ ".CSV") :
        List String × String) ∉
      ([⟨base ++ [s.device_info.device_id, s.device_info.session_id], "TRACK.CSV",
        FileData.csv (write_csv s.track_data)⟩] : FS α).map
        (fun e => (e.dir, e.fname)) := by
    intro q hq hmem
    have hm2 : ((base ++ [s.device_info.device_id, s.device_info.session_id],
        q.1 ++ ".CSV") : List String × String) =
        (base ++ [s.device_info.device_id, s.device_info.session_id], "TRACK.CSV") := by
      simpa using hmem
    have h2b : q.1 ++ ".CSV" = "TRACK.CSV" := congrArg Prod.snd hm2
    have heq : q.1 ++ ".CSV" = "TRACK" ++ ".CSV" := h2b.trans (by decide)
    have hmm : "TRACK" ∈ s.sensor_data.map Prod.fst :=
      append_CSV_inj heq ▸ List.mem_map_of_mem Prod.fst hq
    exact hT hmm
  rw [foldl_fsWrite_fresh _ _ _ hf hnd]
  have hfd : ((base ++ [s.device_info.device_id, s.device_info.session_id],
      "device_info.json") : List String × String) ∉
      (([⟨base ++ [s.device_info.device_id, s.device_info.session_id], "TRACK.CSV",
          FileData.csv (write_csv s.track_data)⟩] : FS α) ++
        s.sensor_data.map (fun p =>
          (⟨base ++ [s.device_info.device_id, s.device_info.session_id],
            p.1 ++ ".CSV", FileData.csv (write_csv p.2)⟩ : FSEntry α))).map
        (fun e => (e.dir, e.fname)) := by
    intro hmem
    rw [List.map_append] at hmem
    rcases List.mem_append.mp hmem with hm | hm
    · have hm2 := (by simpa using hm :
        ((base ++ [s.device_info.device_id, s.device_info.session_id],
          "device_info.json") : List String × String) =
          (base ++ [s.device_info.device_id, s.device_info.session_id], "TRACK.CSV"))
      have h2b : ("device_info.json" : String) = "TRACK.CSV" := congrArg Prod.snd hm2
      exact absurd h2b (by decide)
    · rw [List.map_map] at hm
      rcases List.mem_map.mp hm with ⟨q, hq, hqe⟩
      exact append_CSV_ne_device q.1 (congrArg Prod.snd hqe)
  rw [fsWrite_fresh _ _ _ _ hfd]
  simp

theorem dictUpd_fresh {β : Type} (m : List (String × β)) (k : String) (v : β)
    (h : k ∉ m.map Prod.fst) : dictUpd m k v = m ++ [(k, v)] := by
  unfold dictUpd
  rw [if_neg h]

theorem from_csv_loop_no_track (l : List (String × Table α)) (tr : Option (Table α))
    (sd : List (String × Table α))
    (hT : ∀ p ∈ l, p.1 ≠ "TRACK")
    (hdisj : ∀ p ∈ l, p.1 ∉ sd.map Prod.fst)
    (hnd : (l.map Prod.fst).Nodup) :
    from_csv_loop l tr sd = .ok (tr, sd ++ l) := by
  induction l generalizing sd with
  | nil => simp [from_csv_loop]
  | cons p l ih =>
    obtain ⟨stem, t⟩ := p
    obtain ⟨hp1, hnd2⟩ := List.nodup_cons.mp hnd
    simp only [from_csv_loop]
    rw [if_neg (hT (stem, t) (List.mem_cons_self _ _)),
      dictUpd_fresh _ _ _ (hdisj (stem, t) (List.mem_cons_self _ _))]
    have hdisj2 : ∀ q ∈ l, q.1 ∉ (sd ++ [(stem, t)]).map Prod.fst := by
      intro q hq hmem
      rw [List.map_append] at hmem
      rcases List.mem_append.mp hmem with hm | hm
      · exact hdisj q (List.mem_cons_of_mem _ hq) hm
      · have hqs : q.1 = stem := by simpa using hm
        have hms : stem ∈ l.map Prod.fst := hqs ▸ List.mem_map_of_mem Prod.fst hq
        exact hp1 hms
    rw [ih _ (fun x hx => hT x (List.mem_cons_of_mem _ hx)) hdisj2 hnd2]
    simp

theorem from_json_id (raw : FlysightV2 α) : FlysightV2.from_json raw = raw := by
  have he : (fun (p : String × SensorInfo) =>
      (p.1, SensorInfo.mk p.2.columns p.2.units p.2.id_)) = fun p => p := rfl
  unfold FlysightV2.from_json
  rw [he, List.map_id']

/-- `from_csv` on exactly the file layout `to_csv` produces (atomic dir,
track CSV, sensor CSVs, device JSON) reassembles the session. -/
theorem from_csv_explicit_shape (dir : List String) (track : Table α)
    (sensors : List (String × Table α)) (dev : FlysightV2 α)
    (hTwf : Wf track) (hSwf : ∀ p ∈ sensors, Wf p.2)
    (hTnd : (colNames track).Nodup) (htime : "time" ∈ colNames track)
    (hne : sensors ≠ []) (hT : "TRACK" ∉ sensors.map Prod.fst)
    (hnd : (sensors.map Prod.fst).Nodup) :
    from_csv ((⟨dir, "TRACK.CSV", .csv (write_csv track)⟩ ::
        sensors.map (fun p => ⟨dir, p.1 ++ ".CSV", .csv (write_csv p.2)⟩)) ++
      [⟨dir, "device_info.json", .json dev⟩]) =
      .ok { track_data := track, sensor_data := sensors, device_info := dev,
            _is_trimmed := false } := by
  have hdev : deviceCandidates
      (((⟨dir, "TRACK.CSV", .csv (write_csv track)⟩ ::
        sensors.map (fun p => ⟨dir, p.1 ++ ".CSV", .csv (write_csv p.2)⟩)) ++
        [⟨dir, "device_info.json", .json dev⟩]) : FS α) =
      [⟨dir, "device_info.json", .json dev⟩] := by
    unfold deviceCandidates
    rw [List.filter_append]
    have hstep1 : List.filter (fun (e : FSEntry α) => decide (e.fname = "device_info.json"))
        ((⟨dir, "TRACK.CSV", .csv (write_csv track)⟩ : FSEntry α) ::
          sensors.map (fun p => ⟨dir, p.1 ++ ".CSV", .csv (write_csv p.2)⟩)) =
        List.filter (fun (e : FSEntry α) => decide (e.fname = "device_info.json"))
          (sensors.map (fun p => ⟨dir, p.1 ++ ".CSV", .csv (write_csv p.2)⟩)) :=
      List.filter_cons_of_neg (by simp)
    have hnil : sensors.filter
        ((fun (e : FSEntry α) => decide (e.fname = "device_info.json")) ∘
          (fun p => ⟨dir, p.1 ++ ".CSV", .csv (write_csv p.2)⟩)) = [] := by
      rw [List.filter_eq_nil_iff]
      intro q _
      simpa using append_CSV_ne_device q.1
    have hstep2 : List.filter (fun (e : FSEntry α) => decide (e.fname = "device_info.json"))
        ([⟨dir, "device_info.json", .json dev⟩] : FS α) =
        (⟨dir, "device_info.json", .json dev⟩ : FSEntry α) ::
          List.filter (fun (e : FSEntry α) => decide (e.fname = "device_info.json")) [] :=
      List.filter_cons_of_pos (by simp)
    rw [hstep1, List.filter_map, hnil, List.map_nil, List.nil_append, hstep2,
      List.filter_nil]
  have hcsv : csvEntries
      (((⟨dir, "TRACK.CSV", .csv (write_csv track)⟩ ::
        sensors.map (fun p => ⟨dir, p.1 ++ ".CSV", .csv (write_csv p.2)⟩)) ++
        [⟨dir, "device_info.json", .json dev⟩]) : FS α) dir =
      ("TRACK", track) :: sensors := by
    unfold csvEntries
    rw [List.filter_append]
    have hstep1 : List.filter
        (fun (x : FSEntry α) => decide (x.dir = dir) && strEndsWith x.fname ".CSV")
        ((⟨dir, "TRACK.CSV", .csv (write_csv track)⟩ : FSEntry α) ::
          sensors.map (fun p => ⟨dir, p.1 ++ ".CSV", .csv (write_csv p.2)⟩)) =
        (⟨dir, "TRACK.CSV", .csv (write_csv track)⟩ : FSEntry α) ::
          List.filter
            (fun (x : FSEntry α) => decide (x.dir = dir) && strEndsWith x.fname ".CSV")
            (sensors.map (fun p => ⟨dir, p.1 ++ ".CSV", .csv (write_csv p.2)⟩)) :=
      List.filter_cons_of_pos
        (by simp [show strEndsWith "TRACK.CSV" ".CSV" = true from by decide])
    have hstep2 : List.filter
        (fun (x : FSEntry α) => decide (x.dir = dir) && strEndsWith x.fname ".CSV")
        ([⟨dir, "device_info.json", .json dev⟩] : FS α) =
        List.filter
          (fun (x : FSEntry α) => decide (x.dir = dir) && strEndsWith x.fname ".CSV")
          [] :=
      List.filter_cons_of_neg
        (by simp [show strEndsWith "device_info.json" ".CSV" = false from by decide])
    have hself : sensors.filter
        ((fun (x : FSEntry α) => decide (x.dir = dir) && strEndsWith x.fname ".CSV") ∘
          (fun p => ⟨dir, p.1 ++ ".CSV", .csv (write_csv p.2)⟩)) = sensors := by
      rw [List.filter_eq_self]
      intro q hq
      simp [strEndsWith_append]
    rw [hstep1, List.filter_map, hself, hstep2, List.filter_nil, List.append_nil,
      List.map_cons, List.map_map]
    congr 1
    · show ((strDropRight "TRACK.CSV" 4 : String), read_csv (write_csv track)) =
        ("TRACK", track)
      rw [read_write_csv track hTwf,
        show strDropRight "TRACK.CSV" 4 = "TRACK" from by decide]
    · refine Eq.trans (List.map_congr_left ?_) (List.map_id' sensors)
      intro q hq
      show ((strDropRight (q.1 ++ ".CSV") 4 : String),
        read_csv (write_csv q.2)) = q
      rw [strDropRight_append_CSV, read_write_csv q.2 (hSwf q hq)]
  have hloop : from_csv_loop (("TRACK", track) :: sensors) none [] =
      .ok (some track, sensors) := by
    obtain ⟨ct, hct⟩ := getCol_of_mem_colNames track "time" htime
    have hstep : from_csv_loop (("TRACK", track) :: sensors) none [] =
        from_csv_loop sensors (some (setCol track "time" ct)) [] := by
      simp only [from_csv_loop, reduceIte]
      rw [hct]
    rw [hstep, setCol_getCol_self track "time" ct hTnd hct]
    have hrest := from_csv_loop_no_track sensors (some track) []
      (fun p hp hTp => hT (hTp ▸ List.mem_map_of_mem Prod.fst hp))
      (fun p _ => by simp) hnd
    simpa using hrest
  have h1 : from_csv
      (((⟨dir, "TRACK.CSV", .csv (write_csv track)⟩ ::
        sensors.map (fun p => ⟨dir, p.1 ++ ".CSV", .csv (write_csv p.2)⟩)) ++
        [⟨dir, "device_info.json", .json dev⟩]) : FS α) =
      from_csv_assemble dev (csvEntries
        (((⟨dir, "TRACK.CSV", .csv (write_csv track)⟩ ::
          sensors.map (fun p => ⟨dir, p.1 ++ ".CSV", .csv (write_csv p.2)⟩)) ++
          [⟨dir, "device_info.json", .json dev⟩]) : FS α) dir) := by
    unfold from_csv
    rw [hdev]
  rw [h1, hcsv]
  unfold from_csv_assemble
  rw [hloop]
  show (if sensors.isEmpty then
      (Except.error (PErr.valueError "No sensor data files could be located.") :
        Except PErr (FlysightV2FlightLog α))
    else Except.ok { track_data := track, sensor_data := sensors,
                      device_info := FlysightV2.from_json dev }) = _
  rw [if_neg (fun hc => hne (List.isEmpty_iff.mp hc)), from_json_id]

/-- C2: exporting a valid session with `to_csv` into a fresh directory and
reloading with `from_csv` succeeds and reproduces the track table, every
sensor table (in stored dict order), and every device-identity field —
firmware version, device id, session id, sensor schemas, generation tag,
first sensor timestamp, ground pressure reference — exactly; `_is_trimmed`
resets to its dataclass default.  Validity: rectangular tables, distinct
track column names including a `time` column, at least one sensor table,
distinct sensor names, and no sensor named `TRACK` (whose CSV would clobber
the track file). -/
theorem C2_to_from_csv_roundtrip (s : FlysightV2FlightLog α) (base : List String)
    (hTwf : Wf s.track_data) (hSwf : ∀ p ∈ s.sensor_data, Wf p.2)
    (hTnd : (colNames s.track_data).Nodup)
    (htime : "time" ∈ colNames s.track_data)
    (hne : s.sensor_data ≠ [])
    (hT : "TRACK" ∉ s.sensor_data.map Prod.fst)
    (hnd : (s.sensor_data.map Prod.fst).Nodup) :
    from_csv (to_csv s [] base) =
      .ok { track_data := s.track_data, sensor_data := s.sensor_data,
            device_info := s.device_info, _is_trimmed := false } := by
  rw [to_csv_explicit s base hT hnd]
  exact from_csv_explicit_shape _ s.track_data s.sensor_data s.device_info
    hTwf hSwf hTnd htime hne hT hnd

end

/-- Smoke checks that the embedding evaluates. -/
theorem get_idx_smoke :
    get_idx ([("elapsed_time", [(0 : ℚ), 1, 2, 3, 4, 5])] : Table ℚ) (1/2) = .ok 0 := by
  norm_num [get_idx, getCol, argMin, minIdxCons, absVal]

/-- C1 counterexample: trimming the session to `[0, 2]` resolves the
boundaries to row indices `0` and `2`, succeeds, and keeps only two rows —
the row at index `get_idx(end) = 2` is dropped, so the retained range is not
the claim's closed range (which keeps all three rows). -/
theorem C1_counterexample :
    (trim_log cexSession 0 2).2 = none ∧
    get_idx cexSession.track_data 0 "elapsed_time" = .ok 0 ∧
    get_idx cexSession.track_data 2 "elapsed_time" = .ok 2 ∧
    (trim_log cexSession 0 2).1.track_data = cexTrimmed ∧
    (trim_log cexSession 0 2).1.sensor_data = [("BARO", cexTrimmed)] ∧
    sliceRowsClosed cexSession.track_data 0 2 = cexSession.track_data ∧
    cexTrimmed ≠ cexSession.track_data := by
  norm_num [trim_log, trimSensors, trimTableStep, get_idx, getCol, argMin, minIdxCons,
    absVal, setCol, sliceRows, sliceRowsClosed, colNames, cexSession, cexTable, cexTrimmed]
  all_goals decide

/-- Success characterization of `trim_log`: when `trim_log` succeeds, every sensor table and the track
table are replaced by the **half-open** row slice `[get_idx(start),
get_idx(end))` — the row at index `get_idx(end)` is excluded — with
`elapsed_time` re-zeroed to the slice's first value, and the session is
marked trimmed. -/
theorem trim_log_ok_spec (s s' : FlysightV2FlightLog ℚ) (a b : ℚ)
    (h : trim_log s a b = (s', none)) :
    (∀ i p, s.sensor_data.get? i = some p →
      ∃ l r c f, get_idx p.2 a "elapsed_time" = .ok l ∧
        get_idx p.2 b "elapsed_time" = .ok r ∧
        getCol (sliceRows p.2 l r) "elapsed_time" = some c ∧ c.head? = some f ∧
        s'.sensor_data.get? i =
          some (p.1, setCol (sliceRows p.2 l r) "elapsed_time"
            (c.map (fun x => x - f)))) ∧
    (∃ l r c f, get_idx s.track_data a "elapsed_time" = .ok l ∧
      get_idx s.track_data b "elapsed_time" = .ok r ∧
      getCol (sliceRows s.track_data l r) "elapsed_time" = some c ∧
      c.head? = some f ∧
      s'.track_data = setCol (sliceRows s.track_data l r) "elapsed_time"
        (c.map (fun x => x - f))) ∧
    s'._is_trimmed = true := by
  unfold trim_log at h
  split at h
  · simp at h
  · rename_i sd hsd
    split at h
    · simp at h
    · rename_i tt htt
      have hs' : s' = { s with sensor_data := sd, track_data := tt, _is_trimmed := true } := by
        exact ((Prod.mk.injEq .. ▸ h).1).symm
      subst hs'
      refine ⟨?_, ?_, rfl⟩
      · intro i p hp
        have hstep := trimSensors_ok a b s.sensor_data sd hsd i p hp
        obtain ⟨l, r, c, f, hl, hr, hc, hf, hdf⟩ :=
          trimTableStep_ok p.2 (trimTableStep p.2 a b).1 a b (by rw [← hstep.1])
        exact ⟨l, r, c, f, hl, hr, hc, hf, by rw [hstep.2, hdf]⟩
      · obtain ⟨l, r, c, f, hl, hr, hc, hf, hdf⟩ :=
          trimTableStep_ok s.track_data tt a b htt
        exact ⟨l, r, c, f, hl, hr, hc, hf, hdf⟩

/-- C1 (amended): when `trim_log` succeeds, every sensor table and the track
table are replaced by the **half-open** row slice `[get_idx(start),
get_idx(end))` — the row at index `get_idx(end)` is excluded — with
`elapsed_time` re-zeroed to the slice's first value, and the session is
marked trimmed. -/
theorem C1_trim_halfopen (s s' : FlysightV2FlightLog ℚ) (a b : ℚ)
    (h : trim_log s a b = (s', none)) :
    (∀ i p, s.sensor_data.get? i = some p →
      ∃ l r c f, get_idx p.2 a "elapsed_time" = .ok l ∧
        get_idx p.2 b "elapsed_time" = .ok r ∧
        getCol (sliceRows p.2 l r) "elapsed_time" = some c ∧ c.head? = some f ∧
        s'.sensor_data.get? i =
          some (p.1, setCol (sliceRows p.2 l r) "elapsed_time"
            (c.map (fun x => x - f)))) ∧
    (∃ l r c f, get_idx s.track_data a "elapsed_time" = .ok l ∧
      get_idx s.track_data b "elapsed_time" = .ok r ∧
      getCol (sliceRows s.track_data l r) "elapsed_time" = some c ∧
      c.head? = some f ∧
      s'.track_data = setCol (sliceRows s.track_data l r) "elapsed_time"
        (c.map (fun x => x - f))) ∧
    s'._is_trimmed = true :=
  trim_log_ok_spec s s' a b h

/-- The sensor loop preserves the number of sensor tables on success. -/
theorem trimSensors_ok_length {α : Type} [LinearOrderedField α] (a b : α) :
    ∀ (sd sd' : List (String × Table α)), trimSensors sd a b = (sd', none) →
      sd'.length = sd.length := by
  intro sd
  induction sd with
  | nil =>
    intro sd' h
    simp only [trimSensors] at h
    have h1 : ([] : List (String × Table α)) = sd' := by
      simpa using (Prod.ext_iff.mp h).1
    rw [← h1]
  | cons q rest ih =>
    intro sd' h
    unfold trimSensors at h
    match hstep : trimTableStep q.2 a b with
    | (df', some e) => rw [hstep] at h; exact absurd h (by simp)
    | (df', none) =>
      rw [hstep] at h
      match hrest : trimSensors rest a b with
      | (rest', e') =>
        rw [hrest] at h
        have he : e' = none := (Prod.mk.injEq .. ▸ h).2
        have hsd : sd' = (q.1, df') :: rest' := ((Prod.mk.injEq .. ▸ h).1).symm
        rw [hsd]
        simpa using ih rest' (by rw [hrest, he])

theorem trim_cex_eval : trim_log cexSession 0 2 = (cexSessionTrimmed, none) := by
  norm_num [trim_log, trimSensors, trimTableStep, get_idx, getCol, argMin, minIdxCons,
    absVal, setCol, sliceRows, colNames, cexSession, cexTable, cexTrimmed,
    cexSessionTrimmed]
  all_goals decide

/-- C1 witness: the half-open-slice characterization instantiated on the
concrete session, window `[0, 2]`. -/
theorem C1_trim_halfopen_witness :
    cexSessionTrimmed._is_trimmed = true ∧
    (∃ l r c f, get_idx cexSession.track_data (0 : ℚ) "elapsed_time" = .ok l ∧
      get_idx cexSession.track_data 2 "elapsed_time" = .ok r ∧
      getCol (sliceRows cexSession.track_data l r) "elapsed_time" = some c ∧
      c.head? = some f ∧
      cexSessionTrimmed.track_data =
        setCol (sliceRows cexSession.track_data l r) "elapsed_time"
          (c.map (fun x => x - f))) := by
  have h := C1_trim_halfopen cexSession cexSessionTrimmed 0 2 trim_cex_eval
  exact ⟨h.2.2, h.2.1⟩

/-- C4: whenever `trim_log` completes without error, the `elapsed_time`
column of every resulting sensor table and of the resulting track table
starts at exactly `0` (each table is re-zeroed by its new first value). -/
theorem C4_trim_rezeroes (s s' : FlysightV2FlightLog ℚ) (a b : ℚ)
    (h : trim_log s a b = (s', none)) :
    (∀ p ∈ s'.sensor_data,
      ∃ c, getCol p.2 "elapsed_time" = some c ∧ c.head? = some 0) ∧
    (∃ c, getCol s'.track_data "elapsed_time" = some c ∧ c.head? = some 0) := by
  have hspec := trim_log_ok_spec s s' a b h
  constructor
  · intro p hp
    obtain ⟨i, hi⟩ := List.get?_of_mem hp
    have hilen : i < s'.sensor_data.length := by
      by_contra hge
      rw [List.get?_eq_none.mpr (by omega)] at hi
      exact absurd hi (by simp)
    have hlen : s'.sensor_data.length = s.sensor_data.length := by
      unfold trim_log at h
      split at h
      · simp at h
      · rename_i sd hsd
        split at h
        · simp at h
        · have hs : s'.sensor_data = sd := by
            have h1 := congrArg (fun q => q.1.sensor_data) h
            simpa using h1.symm
          rw [hs]
          exact trimSensors_ok_length a b s.sensor_data sd hsd
    have hilen' : i < s.sensor_data.length := by omega
    match hq : s.sensor_data.get? i with
    | none => rw [List.get?_eq_none] at hq; omega
    | some q =>
      obtain ⟨l, r, c, f, -, -, -, hf, hout⟩ := hspec.1 i q hq
      rw [hout] at hi
      have hp' : p = (q.1, setCol (sliceRows q.2 l r) "elapsed_time"
          (c.map (fun x => x - f))) := by simpa using hi.symm
      refine ⟨c.map (fun x => x - f), ?_, ?_⟩
      · rw [hp']
        exact getCol_setCol_self ..
      · match c, hf with
        | x :: xs, hf =>
          have hx : x = f := by simpa using hf
          simp [hx]
  · obtain ⟨l, r, c, f, -, -, -, hf, hout⟩ := hspec.2.1
    refine ⟨c.map (fun x => x - f), ?_, ?_⟩
    · rw [hout]
      exact getCol_setCol_self ..
    · match c, hf with
      | x :: xs, hf =>
        have hx : x = f := by simpa using hf
        simp [hx]

/-- C4 witness: the re-zero property instantiated on the concrete session. -/
theorem C4_trim_rezeroes_witness :
    ∃ c, getCol cexSessionTrimmed.track_data "elapsed_time" = some c ∧
      c.head? = some 0 :=
  (C4_trim_rezeroes cexSession cexSessionTrimmed 0 2 trim_cex_eval).2

/-- C10: if a sensor table resolves both trim boundaries to one and the same
row index (for instance when both window ends lie beyond the last
`elapsed_time` value), the slice is empty and `trim_log` raises instead of
producing a table; sensor tables processed earlier in the iteration are left
in their trimmed state, the failing table is left as the empty slice, and
the track table and trimmed flag are untouched — the operation is not
atomic. -/
theorem C10_trim_same_index (s : FlysightV2FlightLog ℚ) (a b : ℚ)
    (pre : List (String × Table ℚ)) (n : String) (df : Table ℚ)
    (post : List (String × Table ℚ)) (i : ℕ)
    (hsd : s.sensor_data = pre ++ (n, df) :: post)
    (hok : ∀ p ∈ pre, (trimTableStep p.2 a b).2 = none)
    (ha : get_idx df a "elapsed_time" = .ok i)
    (hb : get_idx df b "elapsed_time" = .ok i) :
    (trim_log s a b).2 = some PErr.outOfBounds ∧
    (trim_log s a b).1.sensor_data =
      pre.map (fun p => (p.1, (trimTableStep p.2 a b).1)) ++
        (n, sliceRows df i i) :: post ∧
    (trim_log s a b).1.track_data = s.track_data ∧
    (trim_log s a b).1._is_trimmed = s._is_trimmed := by
  have hfail := trimSensors_fail a b pre n df (sliceRows df i i) post .outOfBounds
    hok (trimTableStep_same_idx df a b i ha hb)
  unfold trim_log
  rw [hsd, hfail]
  exact ⟨rfl, rfl, rfl, rfl⟩

/-- C10 witness: trimming the concrete session to the window `[10, 20]`,
which lies beyond its last elapsed time, errors with the failing sensor left
as an empty slice and the track untouched. -/
theorem C10_trim_same_index_witness :
    (trim_log cexSession 10 20).2 = some PErr.outOfBounds ∧
    (trim_log cexSession 10 20).1.sensor_data = [("BARO", sliceRows cexTable 2 2)] ∧
    (trim_log cexSession 10 20).1.track_data = cexSession.track_data ∧
    (trim_log cexSession 10 20).1._is_trimmed = cexSession._is_trimmed := by
  have h := C10_trim_same_index cexSession 10 20 [] "BARO" cexTable [] 2 rfl
    (by simp)
    (by norm_num [get_idx, getCol, argMin, minIdxCons, absVal, cexTable])
    (by norm_num [get_idx, getCol, argMin, minIdxCons, absVal, cexTable])
  exact ⟨h.1, by simpa using h.2.1, h.2.2⟩

/-- C3: `get_idx` returns the first index minimizing the absolute difference
to the query (ties to the earliest occurrence); for strictly increasing
reference data, out-of-range queries clamp to the first and last row; and on
the sequence `[0,1,2,3,4,5]` the queries `-1, 0.3, 0.5, 0.7, 6` resolve to
indices `0, 0, 0, 1, 5`. -/
theorem C3_get_idx_first_argmin :
    (∀ (t : Table ℚ) (q : ℚ) (ref : String) (c : List ℚ) (i : ℕ),
      getCol t ref = some c → get_idx t q ref = .ok i →
      ∃ v, c.get? i = some v ∧
        (∀ j w, c.get? j = some w → absVal (v - q) ≤ absVal (w - q)) ∧
        (∀ j w, j < i → c.get? j = some w → absVal (v - q) < absVal (w - q))) ∧
    (∀ (t : Table ℚ) (q : ℚ) (ref : String) (c : List ℚ),
      getCol t ref = some c → c ≠ [] → List.Pairwise (· < ·) c →
      (∀ w ∈ c, q ≤ w) → get_idx t q ref = .ok 0) ∧
    (∀ (t : Table ℚ) (q : ℚ) (ref : String) (c : List ℚ),
      getCol t ref = some c → c ≠ [] → List.Pairwise (· < ·) c →
      (∀ w ∈ c, w ≤ q) → get_idx t q ref = .ok (c.length - 1)) ∧
    get_idx sampleTable (-1) "elapsed_time" = .ok 0 ∧
    get_idx sampleTable 0.3 "elapsed_time" = .ok 0 ∧
    get_idx sampleTable 0.5 "elapsed_time" = .ok 0 ∧
    get_idx sampleTable 0.7 "elapsed_time" = .ok 1 ∧
    get_idx sampleTable 6 "elapsed_time" = .ok 5 := by
  refine ⟨fun t q ref c i hc h => get_idx_spec t q ref c i hc h,
    fun t q ref c hc hne hsort hq => get_idx_clamp_left t q ref c hc hne hsort hq,
    fun t q ref c hc hne hsort hq => get_idx_clamp_right t q ref c hc hne hsort hq,
    ?_, ?_, ?_, ?_, ?_⟩ <;>
  · norm_num [get_idx, getCol, argMin, minIdxCons, absVal, sampleTable]

/-- C3 witness: the first-argmin and clamp statements instantiated on the
sample sequence. -/
theorem C3_get_idx_witness :
    get_idx sampleTable (-1 : ℚ) "elapsed_time" = .ok 0 ∧
    get_idx sampleTable (6 : ℚ) "elapsed_time" =
      .ok ([(0 : ℚ), 1, 2, 3, 4, 5].length - 1) := by
  have h := C3_get_idx_first_argmin
  constructor
  · exact h.2.1 sampleTable (-1) "elapsed_time" [0, 1, 2, 3, 4, 5]
      (by norm_num [getCol, sampleTable]) (by exact List.cons_ne_nil _ _)
      (by norm_num [List.pairwise_cons]) (by norm_num)
  · exact h.2.2.1 sampleTable 6 "elapsed_time" [0, 1, 2, 3, 4, 5]
      (by norm_num [getCol, sampleTable]) (by exact List.cons_ne_nil _ _)
      (by norm_num [List.pairwise_cons]) (by norm_num)

theorem findDelimIdx_none_iff (kw : String) :
    ∀ lines : List String,
      findDelimIdx lines kw = none ↔ ∀ w ∈ lines, strStartsWith w kw = false := by
  intro lines
  induction lines with
  | nil => simp [findDelimIdx]
  | cons d rest ih =>
    by_cases hd : strStartsWith d kw
    · simp only [findDelimIdx, if_pos hd]
      constructor
      · intro h; exact absurd h (by simp)
      · intro hall; exact absurd (hall d (by simp)) (by simp [hd])
    · simp only [findDelimIdx, if_neg hd]
      have hnone : ((findDelimIdx rest kw).map (· + 1) = none) ↔
          (findDelimIdx rest kw = none) := by
        cases findDelimIdx rest kw <;> simp
      rw [hnone, ih]
      constructor
      · intro hrest w hw
        rcases List.mem_cons.mp hw with hw | hw
        · rw [hw]; exact Bool.eq_false_iff.mpr hd
        · exact hrest w hw
      · intro hall w hw
        exact hall w (by simp [hw])

theorem findDelimIdx_first (kw : String) :
    ∀ (lines : List String) (i : ℕ) (w : String),
      (∀ j v, j < i → lines.get? j = some v → strStartsWith v kw = false) →
      lines.get? i = some w → strStartsWith w kw = true →
      findDelimIdx lines kw = some i := by
  intro lines
  induction lines with
  | nil => intro i w _ hw _; simp at hw
  | cons d rest ih =>
    intro i w hearlier hw hstart
    match i, hw with
    | 0, hw =>
      have hd : d = w := by simpa using hw
      simp [findDelimIdx, hd, hstart]
    | (k + 1), hw =>
      have hd : strStartsWith d kw = false :=
        hearlier 0 d (by omega) rfl
      simp only [findDelimIdx, hd, Bool.false_eq_true, if_false]
      rw [ih k w (fun j v hj hv => hearlier (j + 1) v (by omega) (by simpa using hv))
        (by simpa using hw) hstart]
      rfl

/-- C7: the record splitter takes the first two lines as the LEGACY header
with everything after as data; in MODERN mode it splits at the first line
starting with the delimiter token (header strictly before, data strictly
after), and it fails — with `RawLogParseError`, its only failure — exactly
when no line starts with the token. -/
theorem C7_split_sensor_data :
    (∀ (lines : List String) (kw : String),
      _split_sensor_data lines .version1 kw = .ok (lines.take 2, lines.drop 2)) ∧
    (∀ (lines : List String) (kw : String) (i : ℕ) (w : String),
      (∀ j v, j < i → lines.get? j = some v → strStartsWith v kw = false) →
      lines.get? i = some w → strStartsWith w kw = true →
      _split_sensor_data lines .version2 kw =
        .ok (lines.take i, lines.drop (i + 1))) ∧
    (∀ (lines : List String) (kw : String),
      (∃ e, _split_sensor_data lines .version2 kw = .error e) ↔
        ∀ w ∈ lines, strStartsWith w kw = false) ∧
    (∀ (lines : List String) (kw : String) (e : PErr),
      _split_sensor_data lines .version2 kw = .error e →
      e = .rawLogParse
        "Could not locate line containing partition keyword, please check data file for issues.") := by
  refine ⟨fun lines kw => rfl, ?_, ?_, ?_⟩
  · intro lines kw i w hearlier hw hstart
    unfold _split_sensor_data
    rw [findDelimIdx_first kw lines i w hearlier hw hstart]
  · intro lines kw
    constructor
    · intro ⟨e, he⟩
      unfold _split_sensor_data at he
      match hf : findDelimIdx lines kw with
      | some idx => rw [hf] at he; exact absurd he (by simp)
      | none => exact (findDelimIdx_none_iff kw lines).mp hf
    · intro hall
      refine ⟨PErr.rawLogParse
        "Could not locate line containing partition keyword, please check data file for issues.",
        ?_⟩
      unfold _split_sensor_data
      rw [(findDelimIdx_none_iff kw lines).mpr hall]
  · intro lines kw e he
    unfold _split_sensor_data at he
    match hf : findDelimIdx lines kw with
    | some idx => rw [hf] at he; exact absurd he (by simp)
    | none =>
      rw [hf] at he
      exact ((Except.error.injEq .. ▸ he)).symm

/-- C7 witness: the splitter instantiated on a three-line MODERN log and on
a LEGACY log. -/
theorem C7_split_sensor_data_witness :
    _split_sensor_data ["h1", "h2", "d1"] .version1 "$DATA" =
      .ok (["h1", "h2"], ["d1"]) ∧
    _split_sensor_data ["h1", "$DATA", "d1"] .version2 "$DATA" =
      .ok (["h1"], ["d1"]) := by
  have h := C7_split_sensor_data
  constructor
  · exact h.1 ["h1", "h2", "d1"] "$DATA"
  · exact h.2.1 ["h1", "$DATA", "d1"] "$DATA" 1 "$DATA"
      (by
        intro j v hj hv
        match j, hj, hv with
        | 0, _, hv =>
          have : "h1" = v := by simpa using hv
          rw [← this]
          decide)
      rfl (by decide)

theorem colCut_cons_col (l : String) (lines : List String)
    (h : strStartsWith l "$COL" = true) : colCut (l :: lines) = [] := by
  simp [colCut, findDelimIdx, h]

theorem colCut_cons_other (l : String) (lines : List String)
    (h : strStartsWith l "$COL" = false) :
    colCut (l :: lines) = l :: colCut lines := by
  simp only [colCut, findDelimIdx, h, Bool.false_eq_true, if_false]
  cases hf : findDelimIdx lines "$COL" with
  | none => simp
  | some i => simp

/-- Characterization of the `$VAR` scan: it succeeds on well-formed `$VAR`
lines, a field never named before the first `$COL` line keeps its incoming
value, and a field named by some line (all `$VAR` values being non-empty)
ends up non-empty. -/
theorem scanVars_spec :
    ∀ (lines : List String) (fw dv ss : String),
      (∀ l ∈ colCut lines, strStartsWith l "$VAR" = true →
        (strSplitComma l).length = 3) →
      (∀ l ∈ colCut lines, strStartsWith l "$VAR" = true →
        ¬ (strSplitComma l).get? 2 = some "") →
      ∃ r, scanVars lines fw dv ss = .ok r ∧
        ((¬ ∃ l ∈ colCut lines, VarNamed l "FIRMWARE_VER") → r.1 = fw) ∧
        ((∃ l ∈ colCut lines, VarNamed l "FIRMWARE_VER") → r.1 ≠ "") ∧
        ((¬ ∃ l ∈ colCut lines, VarNamed l "DEVICE_ID") → r.2.1 = dv) ∧
        ((∃ l ∈ colCut lines, VarNamed l "DEVICE_ID") → r.2.1 ≠ "") ∧
        ((¬ ∃ l ∈ colCut lines, VarNamed l "SESSION_ID") → r.2.2 = ss) ∧
        ((∃ l ∈ colCut lines, VarNamed l "SESSION_ID") → r.2.2 ≠ "") := by
  intro lines
  induction lines with
  | nil =>
    intro fw dv ss _ _
    refine ⟨(fw, dv, ss), rfl, fun _ => rfl, ?_, fun _ => rfl, ?_, fun _ => rfl, ?_⟩ <;>
    · rintro ⟨l, hl, -⟩
      simp [colCut] at hl
  | cons l rest ih =>
    intro fw dv ss hwf hne
    by_cases hcol : strStartsWith l "$COL"
    · have hcc := colCut_cons_col l rest hcol
      rw [hcc] at hwf hne ⊢
      refine ⟨(fw, dv, ss), by simp [scanVars, hcol], fun _ => rfl, ?_, fun _ => rfl,
        ?_, fun _ => rfl, ?_⟩ <;>
      · rintro ⟨l', hl', -⟩
        simp at hl'
    · have hcolf : strStartsWith l "$COL" = false := Bool.eq_false_iff.mpr hcol
      have hcc := colCut_cons_other l rest hcolf
      rw [hcc] at hwf hne ⊢
      by_cases hvar : strStartsWith l "$VAR"
      · have hlen := hwf l (List.mem_cons_self ..) hvar
        have hval := hne l (List.mem_cons_self ..) hvar
        match hsp : strSplitComma l with
        | [a, nm, v] =>
          have hv : v ≠ "" := by
            rw [hsp] at hval
            simpa using hval
          have hwf' := fun l' hl' => hwf l' (List.mem_cons_of_mem _ hl')
          have hne' := fun l' hl' => hne l' (List.mem_cons_of_mem _ hl')
          have hnamed : VarNamed l nm := ⟨hvar, by simp [hsp]⟩
          have hnot : ∀ nm', nm' ≠ nm → ¬ VarNamed l nm' := by
            rintro nm' hne'' ⟨-, hget⟩
            rw [hsp] at hget
            have hnn : nm = nm' := by simpa using hget
            exact hne'' hnn.symm
          have hstep : ∀ fw' dv' ss',
              scanVars (l :: rest) fw dv ss = scanVars rest fw' dv' ss' →
              (∀ r, scanVars rest fw' dv' ss' = .ok r →
                scanVars (l :: rest) fw dv ss = .ok r) := by
            intro fw' dv' ss' heq r hr
            rw [heq, hr]
          by_cases hfw : nm = "FIRMWARE_VER"
          · obtain ⟨r, hr, h1, h2, h3, h4, h5, h6⟩ := ih v dv ss hwf' hne'
            have heq : scanVars (l :: rest) fw dv ss = scanVars rest v dv ss := by
              simp [scanVars, hcolf, hvar, hsp, hfw]
            refine ⟨r, by rw [heq, hr], ?_, ?_, ?_, ?_, ?_, ?_⟩
            · intro hno
              exact absurd ⟨l, List.mem_cons_self .., hfw ▸ hnamed⟩ hno
            · intro _
              by_cases hex : ∃ l' ∈ colCut rest, VarNamed l' "FIRMWARE_VER"
              · exact h2 hex
              · rw [h1 hex]; exact hv
            · intro hno
              refine h3 ?_
              rintro ⟨l', hl', hv'⟩
              exact hno ⟨l', List.mem_cons_of_mem _ hl', hv'⟩
            · rintro ⟨l', hl', hv'⟩
              rcases List.mem_cons.mp hl' with hh | hh
              · exact absurd hv' (hh ▸ hnot "DEVICE_ID" (by rw [hfw]; decide))
              · exact h4 ⟨l', hh, hv'⟩
            · intro hno
              refine h5 ?_
              rintro ⟨l', hl', hv'⟩
              exact hno ⟨l', List.mem_cons_of_mem _ hl', hv'⟩
            · rintro ⟨l', hl', hv'⟩
              rcases List.mem_cons.mp hl' with hh | hh
              · exact absurd hv' (hh ▸ hnot "SESSION_ID" (by rw [hfw]; decide))
              · exact h6 ⟨l', hh, hv'⟩
          · by_cases hdv : nm = "DEVICE_ID"
            · obtain ⟨r, hr, h1, h2, h3, h4, h5, h6⟩ := ih fw v ss hwf' hne'
              have heq : scanVars (l :: rest) fw dv ss = scanVars rest fw v ss := by
                simp [scanVars, hcolf, hvar, hsp, hfw, hdv]
              refine ⟨r, by rw [heq, hr], ?_, ?_, ?_, ?_, ?_, ?_⟩
              · intro hno
                refine h1 ?_
                rintro ⟨l', hl', hv'⟩
                exact hno ⟨l', List.mem_cons_of_mem _ hl', hv'⟩
              · rintro ⟨l', hl', hv'⟩
                rcases List.mem_cons.mp hl' with hh | hh
                · exact absurd hv' (hh ▸ hnot "FIRMWARE_VER" (by rw [hdv]; decide))
                · exact h2 ⟨l', hh, hv'⟩
              · intro hno
                exact absurd ⟨l, List.mem_cons_self .., hdv ▸ hnamed⟩ hno
              · intro _
                by_cases hex : ∃ l' ∈ colCut rest, VarNamed l' "DEVICE_ID"
                · exact h4 hex
                · rw [h3 hex]; exact hv
              · intro hno
                refine h5 ?_
                rintro ⟨l', hl', hv'⟩
                exact hno ⟨l', List.mem_cons_of_mem _ hl', hv'⟩
              · rintro ⟨l', hl', hv'⟩
                rcases List.mem_cons.mp hl' with hh | hh
                · exact absurd hv' (hh ▸ hnot "SESSION_ID" (by rw [hdv]; decide))
                · exact h6 ⟨l', hh, hv'⟩
            · by_cases hss : nm = "SESSION_ID"
              · obtain ⟨r, hr, h1, h2, h3, h4, h5, h6⟩ := ih fw dv v hwf' hne'
                have heq : scanVars (l :: rest) fw dv ss = scanVars rest fw dv v := by
                  simp [scanVars, hcolf, hvar, hsp, hfw, hdv, hss]
                refine ⟨r, by rw [heq, hr], ?_, ?_, ?_, ?_, ?_, ?_⟩
                · intro hno
                  refine h1 ?_
                  rintro ⟨l', hl', hv'⟩
                  exact hno ⟨l', List.mem_cons_of_mem _ hl', hv'⟩
                · rintro ⟨l', hl', hv'⟩
                  rcases List.mem_cons.mp hl' with hh | hh
                  · exact absurd hv' (hh ▸ hnot "FIRMWARE_VER" (by rw [hss]; decide))
                  · exact h2 ⟨l', hh, hv'⟩
                · intro hno
                  refine h3 ?_
                  rintro ⟨l', hl', hv'⟩
                  exact hno ⟨l', List.mem_cons_of_mem _ hl', hv'⟩
                · rintro ⟨l', hl', hv'⟩
                  rcases List.mem_cons.mp hl' with hh | hh
                  · exact absurd hv' (hh ▸ hnot "DEVICE_ID" (by rw [hss]; decide))
                  · exact h4 ⟨l', hh, hv'⟩
                · intro hno
                  exact absurd ⟨l, List.mem_cons_self .., hss ▸ hnamed⟩ hno
                · intro _
                  by_cases hex : ∃ l' ∈ colCut rest, VarNamed l' "SESSION_ID"
                  · exact h6 hex
                  · rw [h5 hex]; exact hv
              · obtain ⟨r, hr, h1, h2, h3, h4, h5, h6⟩ := ih fw dv ss hwf' hne'
                have heq : scanVars (l :: rest) fw dv ss = scanVars rest fw dv ss := by
                  simp [scanVars, hcolf, hvar, hsp, hfw, hdv, hss]
                have htrans : ∀ nm', nm' ≠ nm →
                    ((∃ l' ∈ l :: colCut rest, VarNamed l' nm') ↔
                      (∃ l' ∈ colCut rest, VarNamed l' nm')) := by
                  intro nm' hnm'
                  constructor
                  · rintro ⟨l', hl', hv'⟩
                    rcases List.mem_cons.mp hl' with hh | hh
                    · exact absurd hv' (hh ▸ hnot nm' hnm')
                    · exact ⟨l', hh, hv'⟩
                  · rintro ⟨l', hl', hv'⟩
                    exact ⟨l', List.mem_cons_of_mem _ hl', hv'⟩
                refine ⟨r, by rw [heq, hr], ?_, ?_, ?_, ?_, ?_, ?_⟩
                · intro hno
                  exact h1 (fun hx =>
                    hno ((htrans "FIRMWARE_VER" (fun hc => hfw hc.symm)).mpr hx))
                · intro hex
                  exact h2 ((htrans "FIRMWARE_VER" (fun hc => hfw hc.symm)).mp hex)
                · intro hno
                  exact h3 (fun hx =>
                    hno ((htrans "DEVICE_ID" (fun hc => hdv hc.symm)).mpr hx))
                · intro hex
                  exact h4 ((htrans "DEVICE_ID" (fun hc => hdv hc.symm)).mp hex)
                · intro hno
                  exact h5 (fun hx =>
                    hno ((htrans "SESSION_ID" (fun hc => hss hc.symm)).mpr hx))
                · intro hex
                  exact h6 ((htrans "SESSION_ID" (fun hc => hss hc.symm)).mp hex)
        | [] => rw [hsp] at hlen; simp at hlen
        | [_] => rw [hsp] at hlen; simp at hlen
        | [_, _] => rw [hsp] at hlen; simp at hlen
        | _ :: _ :: _ :: _ :: _ => rw [hsp] at hlen; simp at hlen
      · have hvarf : strStartsWith l "$VAR" = false := Bool.eq_false_iff.mpr hvar
        have hwf' := fun l' hl' => hwf l' (List.mem_cons_of_mem _ hl')
        have hne' := fun l' hl' => hne l' (List.mem_cons_of_mem _ hl')
        obtain ⟨r, hr, h1, h2, h3, h4, h5, h6⟩ := ih fw dv ss hwf' hne'
        have heq : scanVars (l :: rest) fw dv ss = scanVars rest fw dv ss := by
          simp [scanVars, hcolf, hvarf]
        have hnol : ∀ nm', ¬ VarNamed l nm' := by
          rintro nm' ⟨hst, -⟩
          rw [hvarf] at hst
          exact absurd hst (by simp)
        have htrans : ∀ nm', (∃ l' ∈ l :: colCut rest, VarNamed l' nm') ↔
            (∃ l' ∈ colCut rest, VarNamed l' nm') := by
          intro nm'
          constructor
          · rintro ⟨l', hl', hv'⟩
            rcases List.mem_cons.mp hl' with hh | hh
            · exact absurd hv' (hh ▸ hnol nm')
            · exact ⟨l', hh, hv'⟩
          · rintro ⟨l', hl', hv'⟩
            exact ⟨l', List.mem_cons_of_mem _ hl', hv'⟩
        refine ⟨r, by rw [heq, hr], ?_, ?_, ?_, ?_, ?_, ?_⟩
        · intro hno; exact h1 (fun hx => hno ((htrans _).mpr hx))
        · intro hex; exact h2 ((htrans _).mp hex)
        · intro hno; exact h3 (fun hx => hno ((htrans _).mpr hx))
        · intro hex; exact h4 ((htrans _).mp hex)
        · intro hno; exact h5 (fun hx => hno ((htrans _).mpr hx))
        · intro hex; exact h6 ((htrans _).mp hex)

/-- C6: a MODERN header whose `$VAR` lines before the first `$COL` line
(all well-formed, with non-empty values) never name the firmware version,
the device id, or the session id fails header decoding with a
`HeadingParseError`; the three missing-field cases are checked independently
in that order and carry three pairwise distinct messages, naming the
firmware version, the device ID, and the session ID respectively. -/
theorem C6_parse_header_missing_fields :
    (∀ lines : List String,
      (∀ l ∈ colCut lines, strStartsWith l "$VAR" = true →
        (strSplitComma l).length = 3) →
      (∀ l ∈ colCut lines, strStartsWith l "$VAR" = true →
        ¬ (strSplitComma l).get? 2 = some "") →
      ((¬ ∃ l ∈ colCut lines, VarNamed l "FIRMWARE_VER") →
        _parse_header (α := ℚ) lines =
          .error (.headingParse "Could not locate device firmware version.")) ∧
      (((∃ l ∈ colCut lines, VarNamed l "FIRMWARE_VER") ∧
        ¬ ∃ l ∈ colCut lines, VarNamed l "DEVICE_ID") →
        _parse_header (α := ℚ) lines =
          .error (.headingParse "Could not locate device ID.")) ∧
      (((∃ l ∈ colCut lines, VarNamed l "FIRMWARE_VER") ∧
        (∃ l ∈ colCut lines, VarNamed l "DEVICE_ID") ∧
        ¬ ∃ l ∈ colCut lines, VarNamed l "SESSION_ID") →
        _parse_header (α := ℚ) lines =
          .error (.headingParse "Could not locate session ID."))) ∧
    ((PErr.headingParse "Could not locate device firmware version." ≠
        .headingParse "Could not locate device ID.") ∧
      (PErr.headingParse "Could not locate device firmware version." ≠
        .headingParse "Could not locate session ID.") ∧
      (PErr.headingParse "Could not locate device ID." ≠
        .headingParse "Could not locate session ID.")) := by
  constructor
  · intro lines hwf hne
    obtain ⟨⟨fw, dv, ss⟩, hr, h1, h2, h3, h4, h5, h6⟩ :=
      scanVars_spec lines "" "" "" hwf hne
    refine ⟨?_, ?_, ?_⟩
    · intro hno
      have hfw : fw = "" := h1 hno
      simp only [_parse_header, hr]
      rw [if_pos hfw]
    · rintro ⟨hex, hno⟩
      have hfw : ¬fw = "" := h2 hex
      have hdv : dv = "" := h3 hno
      simp only [_parse_header, hr]
      rw [if_neg hfw, if_pos hdv]
    · rintro ⟨hexf, hexd, hno⟩
      have hfw : ¬fw = "" := h2 hexf
      have hdv : ¬dv = "" := h4 hexd
      have hss : ss = "" := h5 hno
      simp only [_parse_header, hr]
      rw [if_neg hfw, if_neg hdv, if_pos hss]
  · exact ⟨by decide, by decide, by decide⟩

/-- C6 witness: three concrete headers, each omitting exactly one identity
field, each hitting its own distinct error message. -/
theorem C6_parse_header_missing_fields_witness :
    _parse_header (α := ℚ)
        ["$VAR,DEVICE_ID,dev1", "$VAR,SESSION_ID,sess1",
          "$COL,BARO,time,pressure", "$UNIT,BARO,s,Pa"] =
      .error (.headingParse "Could not locate device firmware version.") ∧
    _parse_header (α := ℚ)
        ["$VAR,FIRMWARE_VER,v1", "$VAR,SESSION_ID,sess1",
          "$COL,BARO,time,pressure", "$UNIT,BARO,s,Pa"] =
      .error (.headingParse "Could not locate device ID.") ∧
    _parse_header (α := ℚ)
        ["$VAR,FIRMWARE_VER,v1", "$VAR,DEVICE_ID,dev1",
          "$COL,BARO,time,pressure", "$UNIT,BARO,s,Pa"] =
      .error (.headingParse "Could not locate session ID.") := by
  have h := C6_parse_header_missing_fields
  refine ⟨?_, ?_, ?_⟩
  · exact (h.1 ["$VAR,DEVICE_ID,dev1", "$VAR,SESSION_ID,sess1",
      "$COL,BARO,time,pressure", "$UNIT,BARO,s,Pa"]
      (by decide) (by decide)).1 (by decide)
  · exact (h.1 ["$VAR,FIRMWARE_VER,v1", "$VAR,SESSION_ID,sess1",
      "$COL,BARO,time,pressure", "$UNIT,BARO,s,Pa"]
      (by decide) (by decide)).2.1 (by decide)
  · exact (h.1 ["$VAR,FIRMWARE_VER,v1", "$VAR,DEVICE_ID,dev1",
      "$COL,BARO,time,pressure", "$UNIT,BARO,s,Pa"]
      (by decide) (by decide)).2.2 (by decide)

/-- C5: `calculate_sync_delta` returns `time[0] - ((GPS epoch + week[0]
weeks + tow[0] seconds) - elapsed_time[0])`, with no leap-second term, and
`_add_sync_column` stores `elapsed_time + offset` in a new
`elapsed_time_sensor` column while leaving `elapsed_time` — and every other
existing column — unchanged. -/
theorem C5_sync_delta (track time_ref : Table ℚ)
    (wk tw els ts : List ℚ) (w0 tow0 e0 t0 : ℚ)
    (hwk : getCol time_ref "week" = some wk) (hw0 : wk.head? = some w0)
    (htw : getCol time_ref "tow" = some tw) (htow0 : tw.head? = some tow0)
    (hels : getCol time_ref "elapsed_time" = some els) (he0 : els.head? = some e0)
    (hts : getCol track "time" = some ts) (ht0 : ts.head? = some t0) :
    calculate_sync_delta track time_ref =
      .ok (t0 - ((GPS_EPOCH + (w0 * 604800 + tow0)) - e0)) ∧
    (∀ off ec, getCol track "elapsed_time" = some ec →
      ∃ track', _add_sync_column track off = .ok track' ∧
        getCol track' "elapsed_time_sensor" = some (ec.map (fun x => x + off)) ∧
        (∀ other, other ≠ "elapsed_time_sensor" →
          getCol track' other = getCol track other)) := by
  constructor
  · simp only [calculate_sync_delta, hwk, hw0, htw, htow0, hels, he0, hts, ht0]
  · intro off ec hec
    refine ⟨setCol track "elapsed_time_sensor" (ec.map (fun x => x + off)), ?_, ?_, ?_⟩
    · simp only [_add_sync_column, hec]
    · exact getCol_setCol_self ..
    · intro other hother
      exact getCol_setCol_other _ _ _ _ hother

/-- C5 witness: the spec's sync example — `week = 2310`, `tow = 518400`,
`elapsed_time = 0`, and a track whose first timestamp is one second after
the derived instant — yields an offset of exactly `1`, and the sync column
is appended without touching `elapsed_time`. -/
theorem C5_sync_delta_witness :
    calculate_sync_delta
        ([("time", [1713571201]), ("elapsed_time", [0, 1])] : Table ℚ)
        [("time", [60077]), ("tow", [518400]), ("week", [2310]),
          ("elapsed_time", [0])] = .ok 1 ∧
    (∃ track', _add_sync_column
        ([("time", [1713571201]), ("elapsed_time", [0, 1])] : Table ℚ) 1 =
          .ok track' ∧
      getCol track' "elapsed_time_sensor" = some [1, 2] ∧
      getCol track' "elapsed_time" = some [0, 1]) := by
  have h := C5_sync_delta
    ([("time", [1713571201]), ("elapsed_time", [0, 1])] : Table ℚ)
    [("time", [60077]), ("tow", [518400]), ("week", [2310]), ("elapsed_time", [0])]
    [2310] [518400] [0] [1713571201] 2310 518400 0 1713571201
    (by decide) rfl (by decide) rfl (by decide) rfl (by decide) rfl
  constructor
  · rw [h.1]
    norm_num [GPS_EPOCH]
  · obtain ⟨track', h1, h2, h3⟩ := h.2 1 [0, 1] (by decide)
    refine ⟨track', h1, ?_, ?_⟩
    · rw [h2]
      norm_num
    · rw [h3 "elapsed_time" (by decide)]
      decide

/-- C8: the derived barometric columns satisfy, row-wise,
`press_alt_m = 44330 * (1 - (pressure / p0) ^ (1 / 5.225))` and
`press_alt_ft = press_alt_m * 3.2808`; in particular a single row with
`pressure = 101000` and `p0 = 101325` produces exactly the value of that
formula (the spec's 4-decimal check is this equality up to float
rounding). -/
theorem C8_pressure_altitude (df : Table ℝ) (p0 : ℝ) (ps : List ℝ)
    (hc : getCol df "pressure" = some ps) :
    _calculate_pressure_altitude df p0 false =
      .ok [("press_alt_m",
          ps.map (fun p => 44330 * (1 - (p / p0) ^ ((1 : ℝ) / 5.225)))),
        ("press_alt_ft",
          ps.map (fun p =>
            (44330 * (1 - (p / p0) ^ ((1 : ℝ) / 5.225))) * 3.2808))] ∧
    _calculate_pressure_altitude [("pressure", [(101000 : ℝ)])] 101325 false =
      .ok [("press_alt_m", [44330 * (1 - ((101000 : ℝ) / 101325) ^ ((1 : ℝ) / 5.225))]),
        ("press_alt_ft",
          [(44330 * (1 - ((101000 : ℝ) / 101325) ^ ((1 : ℝ) / 5.225))) * 3.2808])] := by
  constructor
  · simp only [_calculate_pressure_altitude, if_neg (by simp : ¬false = true), hc,
      List.map_map]
    rfl
  · rfl

/-- C8 witness: the formula instantiated on a two-row pressure column. -/
theorem C8_pressure_altitude_witness :
    _calculate_pressure_altitude
        ([("time", [(0 : ℝ), 1]), ("pressure", [101000, 100000])] : Table ℝ)
        101325 false =
      .ok [("press_alt_m",
          [(44330 : ℝ) * (1 - ((101000 : ℝ) / 101325) ^ ((1 : ℝ) / 5.225)),
            44330 * (1 - ((100000 : ℝ) / 101325) ^ ((1 : ℝ) / 5.225))]),
        ("press_alt_ft",
          [((44330 : ℝ) * (1 - ((101000 : ℝ) / 101325) ^ ((1 : ℝ) / 5.225))) * 3.2808,
            (44330 * (1 - ((100000 : ℝ) / 101325) ^ ((1 : ℝ) / 5.225))) * 3.2808])] := by
  have h := (C8_pressure_altitude
    ([("time", [(0 : ℝ), 1]), ("pressure", [101000, 100000])] : Table ℝ)
    101325 [101000, 100000] rfl).1
  rw [h]
  rfl

theorem getCol_append {α : Type} (df alts : Table α) (n : String) :
    getCol (df ++ alts) n =
      match getCol df n with
      | some c => some c
      | none => getCol alts n := by
  induction df with
  | nil => simp [getCol]
  | cons p rest ih =>
    by_cases hp : p.1 = n
    · simp [getCol, hp]
    · simp only [List.cons_append, getCol]
      rw [if_neg hp, if_neg hp]
      exact ih

theorem colNames_append {α : Type} (df alts : Table α) :
    colNames (df ++ alts) = colNames df ++ colNames alts := by
  simp [colNames]

theorem colNames_setCol_of_not_mem {α : Type} (t : Table α) (n : String) (v : List α)
    (h : n ∉ colNames t) : colNames (setCol t n v) = colNames t ++ [n] := by
  unfold setCol
  rw [if_neg h]
  simp [colNames]

theorem colNames_map_replace {α : Type} (t : Table α) (n : String) (v : List α) :
    colNames (t.map (fun p => if p.1 = n then (n, v) else p)) = colNames t := by
  induction t with
  | nil => rfl
  | cons p rest ih =>
    by_cases hp : p.1 = n
    · simp only [List.map_cons]
      rw [if_pos hp]
      simp only [colNames, List.map_cons] at ih ⊢
      rw [ih, hp]
    · simp only [List.map_cons]
      rw [if_neg hp]
      simp only [colNames, List.map_cons] at ih ⊢
      rw [ih]

theorem colNames_setCol_of_mem {α : Type} (t : Table α) (n : String) (v : List α)
    (h : n ∈ colNames t) : colNames (setCol t n v) = colNames t := by
  unfold setCol
  rw [if_pos h]
  exact colNames_map_replace t n v

theorem withColumnChecked_ok_shape {α : Type} (t t' : Table α) (nm : String)
    (v : List α) (h : withColumnChecked t nm v = .ok t') :
    ∃ w, t' = setCol t nm w := by
  unfold withColumnChecked at h
  split at h
  · exact ⟨v, by simpa using h.symm⟩
  · split at h
    · exact ⟨_, by simpa using h.symm⟩
    · exact absurd h (by simp)

theorem withColumnChecked_ok_other {α : Type} [LinearOrderedField α]
    (t t' : Table α) (nm : String)
    (v : List α) (h : withColumnChecked t nm v = .ok t') :
    ∀ m, m ≠ nm → getCol t' m = getCol t m := by
  intro m hm
  obtain ⟨w, ht'⟩ := withColumnChecked_ok_shape t t' nm v h
  rw [ht']
  exact getCol_setCol_other _ _ _ _ hm

theorem withColumnChecked_ok_names_fresh {α : Type} (t t' : Table α) (nm : String)
    (v : List α) (h : withColumnChecked t nm v = .ok t') (hf : nm ∉ colNames t) :
    colNames t' = colNames t ++ [nm] := by
  obtain ⟨w, ht'⟩ := withColumnChecked_ok_shape t t' nm v h
  rw [ht']
  exact colNames_setCol_of_not_mem _ _ _ hf

theorem withColumnChecked_ok_names_mem {α : Type} (t t' : Table α) (nm : String)
    (v : List α) (h : withColumnChecked t nm v = .ok t') (hf : nm ∈ colNames t) :
    colNames t' = colNames t := by
  obtain ⟨w, ht'⟩ := withColumnChecked_ok_shape t t' nm v h
  rw [ht']
  exact colNames_setCol_of_mem _ _ _ hf

theorem dictGet_map_replace {β : Type} (k k' : String) (v : β) :
    ∀ m : List (String × β),
      dictGet (m.map (fun p => if p.1 = k then (k, v) else p)) k' =
        if k' = k then (if k ∈ m.map Prod.fst then some v else none)
        else dictGet m k' := by
  intro m
  induction m with
  | nil => simp [dictGet]
  | cons p rest ih =>
    by_cases hp : p.1 = k
    · simp only [List.map_cons]
      rw [if_pos hp]
      by_cases ho : k' = k
      · simp [dictGet, ho, hp, ih]
      · simp only [dictGet]
        rw [if_neg (fun hc : k = k' => ho hc.symm), ih, if_neg ho, if_neg ho,
          if_neg (hp ▸ fun hc : p.1 = k' => ho (hp ▸ hc).symm)]
    · simp only [List.map_cons]
      rw [if_neg hp]
      by_cases ho : p.1 = k'
      · have hon : ¬k' = k := fun hc => hp (ho.symm ▸ hc)
        simp [dictGet, ho, hon]
      · simp only [dictGet]
        rw [if_neg ho, ih, if_neg ho]
        by_cases hon : k' = k
        · rw [if_pos hon, if_pos hon]
          have hiff : (k ∈ List.map Prod.fst (p :: rest)) ↔
              (k ∈ List.map Prod.fst rest) := by
            constructor
            · intro hc
              rcases (by simpa using hc : k = p.1 ∨ k ∈ List.map Prod.fst rest) with
                hh | hh
              · exact absurd hh.symm hp
              · exact hh
            · intro hc
              simp
              exact Or.inr (by simpa using hc)
          exact (if_congr hiff rfl rfl).symm
        · rw [if_neg hon, if_neg hon]

theorem dictGet_append_one {β : Type} (k k' : String) (v : β) :
    ∀ m : List (String × β),
      dictGet (m ++ [(k, v)]) k' =
        match dictGet m k' with
        | some c => some c
        | none => if k = k' then some v else none := by
  intro m
  induction m with
  | nil => simp [dictGet]
  | cons p rest ih =>
    by_cases hp : p.1 = k'
    · simp [dictGet, hp]
    · simp only [List.cons_append, dictGet]
      rw [if_neg hp, if_neg hp]
      exact ih

theorem dictGet_dictUpd_self {β : Type} (m : List (String × β)) (k : String) (v : β) :
    dictGet (dictUpd m k v) k = some v := by
  unfold dictUpd
  split
  · rename_i hin
    rw [dictGet_map_replace, if_pos rfl, if_pos hin]
  · rename_i hout
    rw [dictGet_append_one]
    have hnone : dictGet m k = none := by
      induction m with
      | nil => rfl
      | cons p rest ih =>
        have hp : ¬p.1 = k := fun hc => hout (by simp [hc])
        simp only [dictGet]
        rw [if_neg hp]
        exact ih (fun hc => hout (by
          simp
          exact Or.inr (by simpa using hc)))
    rw [hnone, if_pos rfl]

theorem dictGet_dictUpd_other {β : Type} (m : List (String × β)) (k k' : String)
    (v : β) (h : k' ≠ k) : dictGet (dictUpd m k v) k' = dictGet m k' := by
  unfold dictUpd
  split
  · rw [dictGet_map_replace, if_neg h]
  · rw [dictGet_append_one]
    match hg : dictGet m k' with
    | some c => rfl
    | none => rw [if_neg (fun hc : k = k' => h hc.symm)]

theorem hstackT_ok {α : Type} (df alts d : Table α) (h : hstackT df alts = .ok d) :
    d = df ++ alts ∧ (colNames df ++ colNames alts).Nodup := by
  unfold hstackT at h
  split at h
  · exact ⟨by simpa using h.symm, by assumption⟩
  · exact absurd h (by simp)

theorem hstackT_dup {α : Type} (df alts : Table α)
    (h : ¬(colNames df ++ colNames alts).Nodup) :
    hstackT df alts = .error (.duplicateColumn "unable to hstack, column already exists") := by
  unfold hstackT
  rw [if_neg h]

theorem mem_colNames_setCol {α : Type} (t : Table α) (nm n : String) (v : List α)
    (h : n ∈ colNames t) : n ∈ colNames (setCol t nm v) := by
  by_cases hm : nm ∈ colNames t
  · rw [colNames_setCol_of_mem _ _ _ hm]; exact h
  · rw [colNames_setCol_of_not_mem _ _ _ hm]; exact List.mem_append_left _ h

theorem exceptBind_ok {ε α β : Type} (a : α) (f : α → Except ε β) :
    Except.bind (.ok a) f = f a := rfl

theorem exceptBind_error {ε α β : Type} (e : ε) (f : α → Except ε β) :
    Except.bind (.error e : Except ε α) f = .error e := rfl

/-- C9 (amended): `filter_accel` appends exactly the four `_filt`-suffixed
columns (when none pre-exists) and leaves every other column of the IMU
table unchanged; `filter_baro`, however, also appends freshly recomputed
**non-suffixed** `press_alt_m` and `press_alt_ft` columns alongside
`pressure_filt`, `press_alt_m_filt` and `press_alt_ft_filt`, and cannot
succeed at all on a BARO table that already carries a `press_alt_m` column
(the `hstack` hits a duplicate name).  In every case the other sensor
tables, the track table and the device metadata are untouched. -/
theorem C9_filter_frame (s s' : FlysightV2FlightLog ℝ) (f : List ℝ → List ℝ)
    (fd : Bool) :
    (filter_accel s f fd = .ok s' →
      ∃ imu imu', dictGet s.sensor_data "IMU" = some imu ∧
        dictGet s'.sensor_data "IMU" = some imu' ∧
        (∀ n, n ≠ "ax_filt" → n ≠ "ay_filt" → n ≠ "az_filt" →
          n ≠ "total_accel_filt" → getCol imu' n = getCol imu n) ∧
        ("ax_filt" ∉ colNames imu → "ay_filt" ∉ colNames imu →
          "az_filt" ∉ colNames imu → "total_accel_filt" ∉ colNames imu →
          colNames imu' = colNames imu ++
            ["ax_filt", "ay_filt", "az_filt", "total_accel_filt"]) ∧
        (∀ k, k ≠ "IMU" → dictGet s'.sensor_data k = dictGet s.sensor_data k) ∧
        s'.track_data = s.track_data ∧ s'.device_info = s.device_info ∧
        s'._is_trimmed = s._is_trimmed) ∧
    (filter_baro s f fd = .ok s' →
      ∃ baro baro', dictGet s.sensor_data "BARO" = some baro ∧
        dictGet s'.sensor_data "BARO" = some baro' ∧
        (∀ n, n ≠ "pressure_filt" → n ≠ "press_alt_m" → n ≠ "press_alt_ft" →
          n ≠ "press_alt_m_filt" → n ≠ "press_alt_ft_filt" →
          getCol baro' n = getCol baro n) ∧
        ("pressure_filt" ∉ colNames baro →
          colNames baro' = colNames baro ++
            ["pressure_filt", "press_alt_m", "press_alt_ft",
              "press_alt_m_filt", "press_alt_ft_filt"]) ∧
        (∀ k, k ≠ "BARO" → dictGet s'.sensor_data k = dictGet s.sensor_data k) ∧
        s'.track_data = s.track_data ∧ s'.device_info = s.device_info ∧
        s'._is_trimmed = s._is_trimmed) ∧
    (∀ baro, dictGet s.sensor_data "BARO" = some baro →
      "press_alt_m" ∈ colNames baro →
      ∀ s'', filter_baro s f fd ≠ .ok s'') := by
  refine ⟨?_, ?_, ?_⟩
  · intro h
    unfold filter_accel at h
    split at h
    · simp at h
    · rename_i df hdg
      split at h
      · rename_i cax cay caz hax hay haz
        match hw1 : withColumnChecked df "ax_filt" (f cax) with
        | .error e => rw [hw1, exceptBind_error] at h; exact absurd h (by simp)
        | .ok df1 =>
        rw [hw1, exceptBind_ok] at h
        match hw2 : withColumnChecked df1 "ay_filt" (f cay) with
        | .error e => rw [hw2, exceptBind_error] at h; exact absurd h (by simp)
        | .ok df2 =>
        rw [hw2, exceptBind_ok] at h
        match hw3 : withColumnChecked df2 "az_filt" (f caz) with
        | .error e => rw [hw3, exceptBind_error] at h; exact absurd h (by simp)
        | .ok df3 =>
        rw [hw3, exceptBind_ok] at h
        match hw4 : withColumnChecked df3 "total_accel_filt"
            (sumSqRt ((df3.filter (fun p => matchesADotFilt p.1)).map Prod.snd)
              (height df3)) with
        | .error e => rw [hw4, exceptBind_error] at h; exact absurd h (by simp)
        | .ok df4 =>
        rw [hw4, exceptBind_ok] at h
        have hcommon : ∀ df5, s' = { s with sensor_data := dictUpd s.sensor_data "IMU" df5 } →
            (∀ m, m ≠ "ax_filt" → m ≠ "ay_filt" → m ≠ "az_filt" →
              m ≠ "total_accel_filt" → getCol df5 m = getCol df m) →
            ("ax_filt" ∉ colNames df → "ay_filt" ∉ colNames df →
              "az_filt" ∉ colNames df → "total_accel_filt" ∉ colNames df →
              colNames df5 = colNames df ++
                ["ax_filt", "ay_filt", "az_filt", "total_accel_filt"]) →
            ∃ imu imu', dictGet s.sensor_data "IMU" = some imu ∧
              dictGet s'.sensor_data "IMU" = some imu' ∧
              (∀ n, n ≠ "ax_filt" → n ≠ "ay_filt" → n ≠ "az_filt" →
                n ≠ "total_accel_filt" → getCol imu' n = getCol imu n) ∧
              ("ax_filt" ∉ colNames imu → "ay_filt" ∉ colNames imu →
                "az_filt" ∉ colNames imu → "total_accel_filt" ∉ colNames imu →
                colNames imu' = colNames imu ++
                  ["ax_filt", "ay_filt", "az_filt", "total_accel_filt"]) ∧
              (∀ k, k ≠ "IMU" → dictGet s'.sensor_data k = dictGet s.sensor_data k) ∧
              s'.track_data = s.track_data ∧ s'.device_info = s.device_info ∧
              s'._is_trimmed = s._is_trimmed := by
          intro df5 hs' hother hnames
          refine ⟨df, df5, hdg, ?_, hother, hnames, ?_, ?_, ?_, ?_⟩
          · rw [hs']
            exact dictGet_dictUpd_self ..
          · intro k hk
            rw [hs']
            exact dictGet_dictUpd_other _ _ _ _ hk
          · rw [hs']
          · rw [hs']
          · rw [hs']
        have hnamesTo4 : "ax_filt" ∉ colNames df → "ay_filt" ∉ colNames df →
            "az_filt" ∉ colNames df → "total_accel_filt" ∉ colNames df →
            colNames df4 = colNames df ++
              ["ax_filt", "ay_filt", "az_filt", "total_accel_filt"] := by
          intro hf1 hf2 hf3 hf4
          have hn1 := withColumnChecked_ok_names_fresh df df1 _ _ hw1 hf1
          have hn2 := withColumnChecked_ok_names_fresh df1 df2 _ _ hw2 (by
            rw [hn1]
            intro hc
            rcases List.mem_append.mp hc with hc | hc
            · exact hf2 hc
            · exact absurd (List.mem_singleton.mp hc) (by decide))
          have hn3 := withColumnChecked_ok_names_fresh df2 df3 _ _ hw3 (by
            rw [hn2, hn1]
            intro hc
            rcases List.mem_append.mp hc with hc | hc
            · rcases List.mem_append.mp hc with hc | hc
              · exact hf3 hc
              · exact absurd (List.mem_singleton.mp hc) (by decide)
            · exact absurd (List.mem_singleton.mp hc) (by decide))
          have hn4 := withColumnChecked_ok_names_fresh df3 df4 _ _ hw4 (by
            rw [hn3, hn2, hn1]
            intro hc
            rcases List.mem_append.mp hc with hc | hc
            · rcases List.mem_append.mp hc with hc | hc
              · rcases List.mem_append.mp hc with hc | hc
                · exact hf4 hc
                · exact absurd (List.mem_singleton.mp hc) (by decide)
              · exact absurd (List.mem_singleton.mp hc) (by decide)
            · exact absurd (List.mem_singleton.mp hc) (by decide))
          rw [hn4, hn3, hn2, hn1]
          simp
        have hotherTo4 : ∀ m, m ≠ "ax_filt" → m ≠ "ay_filt" → m ≠ "az_filt" →
            m ≠ "total_accel_filt" → getCol df4 m = getCol df m := by
          intro m h1 h2 h3 h4
          rw [withColumnChecked_ok_other df3 df4 _ _ hw4 m h4,
            withColumnChecked_ok_other df2 df3 _ _ hw3 m h3,
            withColumnChecked_ok_other df1 df2 _ _ hw2 m h2,
            withColumnChecked_ok_other df df1 _ _ hw1 m h1]
        rcases Bool.eq_false_or_eq_true fd with hfdv | hfdv
        · subst hfdv
          rw [if_pos (show true = true from rfl)] at h
          split at h
          · rename_i c hg
            match hw5 : withColumnChecked df4 "total_accel_filt" (f c) with
            | .error e => rw [hw5, exceptBind_error] at h; exact absurd h (by simp)
            | .ok df5 =>
            rw [hw5, exceptBind_ok] at h
            have hmem4 : "total_accel_filt" ∈ colNames df4 := by
              obtain ⟨w4, hdf4⟩ := withColumnChecked_ok_shape df3 df4 _ _ hw4
              rw [hdf4]
              by_cases hm : "total_accel_filt" ∈ colNames df3
              · rw [colNames_setCol_of_mem _ _ _ hm]
                exact hm
              · rw [colNames_setCol_of_not_mem _ _ _ hm]
                simp
            refine hcommon df5 (by simpa using h.symm) ?_ ?_
            · intro m h1 h2 h3 h4
              rw [withColumnChecked_ok_other df4 df5 _ _ hw5 m h4]
              exact hotherTo4 m h1 h2 h3 h4
            · intro hf1 hf2 hf3 hf4
              rw [withColumnChecked_ok_names_mem df4 df5 _ _ hw5 hmem4]
              exact hnamesTo4 hf1 hf2 hf3 hf4
          · rename_i hg
            rw [exceptBind_error] at h
            exact absurd h (by simp)
        · subst hfdv
          rw [if_neg (show ¬(false = true) by simp), exceptBind_ok] at h
          exact hcommon df4 (by simpa using h.symm) hotherTo4 hnamesTo4
      · simp at h
  · intro h
    unfold filter_baro at h
    split at h
    · simp at h
    · rename_i df hdg
      split at h
      · simp at h
      · rename_i cp hcp
        match hw1 : withColumnChecked df "pressure_filt" (f cp) with
        | .error e => rw [hw1, exceptBind_error] at h; exact absurd h (by simp)
        | .ok df1 =>
        rw [hw1, exceptBind_ok] at h
        match halt : _calculate_pressure_altitude df1
            s.device_info.ground_pressure_pa true with
        | .error e => rw [halt, exceptBind_error] at h; exact absurd h (by simp)
        | .ok alts0 =>
        rw [halt, exceptBind_ok] at h
        have hex : ∃ v1 v2, alts0 = [("press_alt_m", v1), ("press_alt_ft", v2)] := by
          unfold _calculate_pressure_altitude at halt
          split at halt
          · exact absurd halt (by simp)
          · exact ⟨_, _, by simpa using halt.symm⟩
        obtain ⟨v1, v2, halts0⟩ := hex
        subst halts0
        match hhs : hstackT df1
            ([("press_alt_m", v1), ("press_alt_ft", v2)] ++
              [("press_alt_m", v1), ("press_alt_ft", v2)].map
                (fun p => (p.1 ++ "_filt", p.2))) with
        | .error e => rw [hhs, exceptBind_error] at h; exact absurd h (by simp)
        | .ok df2 =>
        rw [hhs, exceptBind_ok] at h
        obtain ⟨hdf2, hnodup⟩ := hstackT_ok _ _ _ hhs
        have halnames : colNames
            (([("press_alt_m", v1), ("press_alt_ft", v2)] : Table ℝ) ++
              [("press_alt_m", v1), ("press_alt_ft", v2)].map
                (fun p => (p.1 ++ "_filt", p.2))) =
            ["press_alt_m", "press_alt_ft", "press_alt_m_filt", "press_alt_ft_filt"] :=
          rfl
        have hmm : "press_alt_m_filt" ∈ colNames df2 := by
          rw [hdf2, colNames_append, halnames]
          simp
        have hmf : "press_alt_ft_filt" ∈ colNames df2 := by
          rw [hdf2, colNames_append, halnames]
          simp
        have hotherTo2 : ∀ n, n ≠ "pressure_filt" → n ≠ "press_alt_m" →
            n ≠ "press_alt_ft" → n ≠ "press_alt_m_filt" → n ≠ "press_alt_ft_filt" →
            getCol df2 n = getCol df n := by
          intro n h1 h2 h3 h4 h5
          rw [hdf2, getCol_append, withColumnChecked_ok_other df df1 _ _ hw1 n h1]
          match hig : getCol df n with
          | some c => rfl
          | none =>
            have e1 : ¬"press_alt_m" = n := fun hc => h2 hc.symm
            have e2 : ¬"press_alt_ft" = n := fun hc => h3 hc.symm
            have e3 : ¬"press_alt_m" ++ "_filt" = n :=
              fun hc => h4 ((hc.symm : n = "press_alt_m_filt"))
            have e4 : ¬"press_alt_ft" ++ "_filt" = n :=
              fun hc => h5 ((hc.symm : n = "press_alt_ft_filt"))
            have e5 : ¬("press_alt_m_filt" : String) = n := fun hc => h4 hc.symm
            have e6 : ¬("press_alt_ft_filt" : String) = n := fun hc => h5 hc.symm
            simp [getCol, e1, e2, e3, e4, e5, e6]
        have hnamesTo2 : "pressure_filt" ∉ colNames df →
            colNames df2 = colNames df ++
              ["pressure_filt", "press_alt_m", "press_alt_ft",
                "press_alt_m_filt", "press_alt_ft_filt"] := by
          intro hf1
          have hn1 := withColumnChecked_ok_names_fresh df df1 _ _ hw1 hf1
          rw [hdf2, colNames_append, halnames, hn1]
          simp
        have hcommon : ∀ df3, s' = { s with sensor_data := dictUpd s.sensor_data "BARO" df3 } →
            (∀ n, n ≠ "pressure_filt" → n ≠ "press_alt_m" → n ≠ "press_alt_ft" →
              n ≠ "press_alt_m_filt" → n ≠ "press_alt_ft_filt" →
              getCol df3 n = getCol df n) →
            ("pressure_filt" ∉ colNames df →
              colNames df3 = colNames df ++
                ["pressure_filt", "press_alt_m", "press_alt_ft",
                  "press_alt_m_filt", "press_alt_ft_filt"]) →
            ∃ baro baro', dictGet s.sensor_data "BARO" = some baro ∧
              dictGet s'.sensor_data "BARO" = some baro' ∧
              (∀ n, n ≠ "pressure_filt" → n ≠ "press_alt_m" → n ≠ "press_alt_ft" →
                n ≠ "press_alt_m_filt" → n ≠ "press_alt_ft_filt" →
                getCol baro' n = getCol baro n) ∧
              ("pressure_filt" ∉ colNames baro →
                colNames baro' = colNames baro ++
                  ["pressure_filt", "press_alt_m", "press_alt_ft",
                    "press_alt_m_filt", "press_alt_ft_filt"]) ∧
              (∀ k, k ≠ "BARO" → dictGet s'.sensor_data k = dictGet s.sensor_data k) ∧
              s'.track_data = s.track_data ∧ s'.device_info = s.device_info ∧
              s'._is_trimmed = s._is_trimmed := by
          intro df3 hs' hother hnames
          refine ⟨df, df3, hdg, ?_, hother, hnames, ?_, ?_, ?_, ?_⟩
          · rw [hs']
            exact dictGet_dictUpd_self ..
          · intro k hk
            rw [hs']
            exact dictGet_dictUpd_other _ _ _ _ hk
          · rw [hs']
          · rw [hs']
          · rw [hs']
        rcases Bool.eq_false_or_eq_true fd with hfdv | hfdv
        · subst hfdv
          rw [if_pos (show true = true from rfl)] at h
          split at h
          · rename_i c1 c2 hg1 hg2
            match hwa : withColumnChecked df2 "press_alt_m_filt" (f c1) with
            | .error e => rw [hwa, exceptBind_error, exceptBind_error] at h
                          exact absurd h (by simp)
            | .ok d =>
            rw [hwa, exceptBind_ok] at h
            match hwb : withColumnChecked d "press_alt_ft_filt" (f c2) with
            | .error e => rw [hwb, exceptBind_error] at h; exact absurd h (by simp)
            | .ok df3 =>
            rw [hwb, exceptBind_ok] at h
            refine hcommon df3 (by simpa using h.symm) ?_ ?_
            · intro n h1 h2 h3 h4 h5
              rw [withColumnChecked_ok_other d df3 _ _ hwb n h5,
                withColumnChecked_ok_other df2 d _ _ hwa n h4]
              exact hotherTo2 n h1 h2 h3 h4 h5
            · intro hf1
              rw [withColumnChecked_ok_names_mem d df3 _ _ hwb (by
                  rw [withColumnChecked_ok_names_mem df2 d _ _ hwa hmm]
                  exact hmf),
                withColumnChecked_ok_names_mem df2 d _ _ hwa hmm]
              exact hnamesTo2 hf1
          · rename_i hg
            rw [exceptBind_error] at h
            exact absurd h (by simp)
        · subst hfdv
          rw [if_neg (show ¬(false = true) by simp), exceptBind_ok] at h
          exact hcommon df2 (by simpa using h.symm) hotherTo2 hnamesTo2
  · intro baro hbg hmem s'' hok
    unfold filter_baro at hok
    rw [hbg] at hok
    simp only at hok
    match hcp : getCol baro "pressure" with
    | none => rw [hcp] at hok; exact absurd hok (by simp)
    | some cp =>
      rw [hcp] at hok
      simp only at hok
      match hw1 : withColumnChecked baro "pressure_filt" (f cp) with
      | .error e => rw [hw1, exceptBind_error] at hok; exact absurd hok (by simp)
      | .ok df1 =>
      rw [hw1, exceptBind_ok] at hok
      obtain ⟨w, hdf1⟩ := withColumnChecked_ok_shape baro df1 _ _ hw1
      match halt : _calculate_pressure_altitude df1
          s.device_info.ground_pressure_pa true with
      | .error e => rw [halt, exceptBind_error] at hok; exact absurd hok (by simp)
      | .ok alts0 =>
      rw [halt, exceptBind_ok] at hok
      have hex : ∃ v1 v2, alts0 = [("press_alt_m", v1), ("press_alt_ft", v2)] := by
        unfold _calculate_pressure_altitude at halt
        split at halt
        · exact absurd halt (by simp)
        · exact ⟨_, _, by simpa using halt.symm⟩
      obtain ⟨v1, v2, halts0⟩ := hex
      subst halts0
      have hdup : ¬(colNames df1 ++
          colNames (([("press_alt_m", v1), ("press_alt_ft", v2)] : Table ℝ) ++
            [("press_alt_m", v1), ("press_alt_ft", v2)].map
              (fun p => (p.1 ++ "_filt", p.2)))).Nodup := by
        intro hnd
        obtain ⟨-, -, hdisj⟩ := List.nodup_append.mp hnd
        refine hdisj (a := "press_alt_m") ?_ ?_
        · rw [hdf1]
          exact mem_colNames_setCol _ _ _ _ hmem
        · simp [colNames]
      rw [hstackT_dup _ _ hdup, exceptBind_error] at hok
      exact absurd hok (by simp)

/-- C9 counterexample: filtering a BARO table that has no derived columns
succeeds, yet the result carries the freshly recomputed **non-suffixed**
columns `press_alt_m` and `press_alt_ft` alongside the `_filt` family —
`filter_baro` does not only append `_filt`-suffixed columns, refuting the
claim as stated. -/
theorem C9_counterexample :
    ∃ s : FlysightV2FlightLog ℝ, filter_baro cexSessionR id false = .ok s ∧
      ∃ baro, dictGet s.sensor_data "BARO" = some baro ∧
        colNames baro = ["time", "pressure", "pressure_filt", "press_alt_m",
          "press_alt_ft", "press_alt_m_filt", "press_alt_ft_filt"] ∧
        "press_alt_m" ∉ colNames cexBaroR ∧
        strEndsWith "press_alt_m" "_filt" = false := by
  exact ⟨_, rfl, _, rfl, rfl, by decide, by decide⟩

/-- C9 witness: on a session whose BARO table already has a `press_alt_m`
column, `filter_baro` cannot succeed — the duplicate-failure conjunct of the
frame theorem applied at a concrete session. -/
theorem C9_filter_frame_witness :
    filter_baro cexSessionDupR id false ≠ .ok cexSessionDupR :=
  (C9_filter_frame cexSessionDupR cexSessionDupR id false).2.2 cexBaroDupR rfl
    (by decide) cexSessionDupR

/-- C2 witness: the round-trip applied to a concrete session, with every
validity hypothesis discharged by evaluation. -/
theorem C2_to_from_csv_roundtrip_witness :
    from_csv (to_csv cexCsvSession [] ["export"]) =
      .ok { track_data := cexCsvTable, sensor_data := [("BARO", cexCsvTable)],
            device_info := cexDevice, _is_trimmed := false } :=
  C2_to_from_csv_roundtrip cexCsvSession ["export"] (by decide) (by decide)
    (by decide) (by decide) (by decide) (by decide) (by decide)

end PyFlysight
